import Mathlib

/-!
Verification development for the `lambda_deployer` repository: a deployment
orchestrator wiring four AWS control-plane services (IAM, Lambda, S3, EC2/VPC)
to publish a container image as a Lambda function with S3 access and optional
VPC binding.

The embedding models the cloud provider as an explicit world state
(`AwsState`), each boto3 client call as a primitive state transition that also
appends an entry to a call trace, and each Python method of the repository as
a function in the monad `M` (state + trace + exceptions).  Python
`ClientError` exceptions are modelled by `Err.clientError code`; each
`ValueError` raise site of the repository has its own `Err` constructor.
boto3 waiters (`function_active` / `function_updated`) and `time.sleep` only
block; they do not change control-plane state and are modelled as no-ops.
Pagination markers: the model returns every listing in a single page with
`IsTruncated = False`, so the source's pagination `while` loops run zero
times and are not re-modelled.
-/

/-- Calls issued against the cloud provider, one constructor per boto3 client
method the repository invokes. -/
inductive ApiCall where
  | getRole (roleName : String)
  | createRole (roleName : String)
  | deleteRole (roleName : String)
  | getPolicy (policyArn : String)
  | createPolicy (policyName : String)
  | deletePolicy (policyArn : String)
  | listEntitiesForPolicy (policyArn : String)
  | detachRolePolicy (roleName policyArn : String)
  | attachRolePolicy (roleName policyArn : String)
  | listAttachedRolePolicies (roleName : String)
  | listRolePolicies (roleName : String)
  | deleteRolePolicy (roleName policyName : String)
  | getCallerIdentity
  | getFunction (functionName : String)
  | createFunction (functionName : String)
  | updateFunctionCode (functionName : String)
  | updateFunctionConfiguration (functionName : String)
  | getFunctionConfiguration (functionName : String)
  | headBucket (bucket : String)
  | invokeFunction (functionName : String)
  | describeVpcs (vpcIds : List String)
  | describeSubnets (subnetIds : List String)
  | describeSecurityGroups (groupIds : List String)
  deriving Repr, DecidableEq

/-- Exceptions.  `clientError code` models a botocore `ClientError` whose
`response['Error']['Code']` is `code`; the other constructors model the
repository's `ValueError` raise sites (one constructor per raise). -/
inductive Err where
  | missingEcrImageUri
  | missingFunctionName
  | missingS3Bucket
  | missingSubnetIds
  | invalidVpc (vpcId : String)
  | invalidSubnets (subnetIds : List String)
  | invalidSecurityGroups (groupIds : List String)
  | bucketUnavailable (bucket : String)
  | clientError (code : String)
  deriving Repr, DecidableEq

/-- Errors raised by `LambdaDeployer.deploy`'s own parameter validation
(the spec's `MissingParameter` taxonomy entry). -/
def Err.isMissingParameter : Err → Bool
  | .missingEcrImageUri => true
  | .missingFunctionName => true
  | .missingS3Bucket => true
  | .missingSubnetIds => true
  | _ => false

/-- The VPC configuration dictionary produced by
`VPCConfigurator.create_vpc_config`; `SecurityGroupIds = none` models the
`SecurityGroupIds` key being absent from the dictionary. -/
structure VpcConfig where
  SubnetIds : List String
  SecurityGroupIds : Option (List String)
  deriving Repr, DecidableEq

/-- An IAM managed policy.  `bucket = some b` records that the policy document
is the S3 access document for bucket `b` generated by
`_create_s3_access_policy`; `none` stands for any other document (such as the
basic execution policy). -/
structure Policy where
  name : String
  arn : String
  bucket : Option String
  deriving Repr, DecidableEq

/-- An IAM role together with the ARNs of its attached managed policies.
The repository never creates inline policies, so roles carry none. -/
structure Role where
  name : String
  arn : String
  attached : List String
  deriving Repr, DecidableEq

/-- A Lambda function as the provider stores it.  `env` is the
`Environment.Variables` map, in insertion order (Python dict semantics). -/
structure LambdaFunction where
  name : String
  arn : String
  imageUri : String
  roleArn : String
  memorySize : Nat
  timeout : Nat
  vpcConfig : Option VpcConfig
  env : List (String × String)
  deriving Repr, DecidableEq

/-- An EC2 VPC. -/
structure Vpc where
  vpcId : String
  state : String
  deriving Repr, DecidableEq

/-- An EC2 subnet with its parent VPC. -/
structure Subnet where
  subnetId : String
  vpcId : String
  state : String
  deriving Repr, DecidableEq

/-- An EC2 security group with its parent VPC. -/
structure SecurityGroup where
  groupId : String
  vpcId : String
  deriving Repr, DecidableEq

/-- The provider-side world the deployer manipulates.  `s3Buckets` are
buckets `head_bucket` reaches; `s3Forbidden` are buckets that exist but
answer 403 to `head_bucket`. -/
structure AwsState where
  accountId : String
  roles : List Role
  policies : List Policy
  functions : List LambdaFunction
  s3Buckets : List String
  s3Forbidden : List String
  vpcs : List Vpc
  subnets : List Subnet
  securityGroups : List SecurityGroup
  deriving Repr, DecidableEq

/-- Interpreter state: the provider world plus the chronological trace of
client calls issued so far. -/
structure St where
  aws : AwsState
  trace : List ApiCall
  deriving Repr, DecidableEq

/-- Append one client call to the trace. -/
def St.record (s : St) (c : ApiCall) : St := ⟨s.aws, s.trace ++ [c]⟩

/-- Replace the provider world, keeping the trace. -/
def St.setAws (s : St) (a : AwsState) : St := ⟨a, s.trace⟩

/-- Computation monad of the embedding: state plus trace plus exceptions.
Errors do not roll the state back (Python exceptions leave completed side
effects in place). -/
def M (α : Type) : Type := St → Except Err α × St

instance : Monad M where
  pure a := fun s => (Except.ok a, s)
  bind m k := fun s =>
    match m s with
    | (Except.ok a, s') => k a s'
    | (Except.error e, s') => (Except.error e, s')

/-- Raise an exception. -/
def M.throw (e : Err) : M α := fun s => (Except.error e, s)

/-- Model of a Python `try ... except` block: on error the handler runs from
the state reached at the raise point. -/
def M.tryCatch (m : M α) (h : Err → M α) : M α := fun s =>
  match m s with
  | (Except.ok a, s') => (Except.ok a, s')
  | (Except.error e, s') => h e s'

/-- Lift a pure `Except` value into the monad. -/
def M.ofExcept (r : Except Err α) : M α := fun s => (r, s)

/-- Record a client call in the trace. -/
def M.record (c : ApiCall) : M Unit := fun s => (Except.ok (), s.record c)

/-- Run a computation from a provider world with an empty trace. -/
def runM (m : M α) (a : AwsState) : Except Err α × St := m ⟨a, []⟩

/-- Python truthiness of an `Optional[str]`. -/
def strTruthy : Option String → Bool
  | none => false
  | some s => !(s == "")

/-- Python truthiness of an `Optional[List[str]]`. -/
def optListTruthy : Option (List String) → Bool
  | none => false
  | some l => !l.isEmpty

/-- Lookup helpers over the world (boto3 looks resources up by their unique
identifier). -/
def findRole (a : AwsState) (n : String) : Option Role :=
  a.roles.find? (·.name == n)

/-- Find a managed policy by ARN. -/
def findPolicyByArn (a : AwsState) (arn : String) : Option Policy :=
  a.policies.find? (·.arn == arn)

/-- Does some managed policy with this name exist (IAM names are unique per
account, which `create_policy` enforces with `EntityAlreadyExists`)? -/
def policyNameExists (a : AwsState) (n : String) : Bool :=
  a.policies.any (·.name == n)

/-- Find a Lambda function by name. -/
def findFunction (a : AwsState) (n : String) : Option LambdaFunction :=
  a.functions.find? (·.name == n)

/-- Find a VPC by id. -/
def findVpc (a : AwsState) (v : String) : Option Vpc :=
  a.vpcs.find? (·.vpcId == v)

/-- Find a subnet by id. -/
def findSubnet (a : AwsState) (i : String) : Option Subnet :=
  a.subnets.find? (·.subnetId == i)

/-- Find a security group by id. -/
def findSecurityGroup (a : AwsState) (g : String) : Option SecurityGroup :=
  a.securityGroups.find? (·.groupId == g)

/-- ARN the provider assigns to a managed policy
(`arn:aws:iam::{account}:policy/{name}`, as the repository itself
reconstructs it). -/
def mkPolicyArn (accountId policyName : String) : String :=
  "arn:aws:iam::" ++ accountId ++ ":policy/" ++ policyName

/-- ARN the provider assigns to a role. -/
def mkRoleArn (accountId roleName : String) : String :=
  "arn:aws:iam::" ++ accountId ++ ":role/" ++ roleName

/-- ARN the provider assigns to a Lambda function. -/
def mkFunctionArn (functionName : String) : String :=
  "arn:aws:lambda:us-east-1:function:" ++ functionName

/-- Apply `f` to every role named `n` (names are the update key). -/
def updateRoles (roles : List Role) (n : String) (f : Role → Role) : List Role :=
  roles.map (fun r => if r.name == n then f r else r)

/-- Apply `f` to every function named `n`. -/
def updateFunctions (fs : List LambdaFunction) (n : String)
    (f : LambdaFunction → LambdaFunction) : List LambdaFunction :=
  fs.map (fun g => if g.name == n then f g else g)

/-- Look every id up, failing (as the EC2 describe calls do) if any id is
unknown. -/
def lookupAll (f : String → Option α) : List String → Option (List α)
  | [] => some []
  | i :: rest =>
    match f i, lookupAll f rest with
    | some x, some l => some (x :: l)
    | _, _ => none

/-! ## Client-call primitives (boto3 surface) -/

/-- iam.get_role. -/
def iam_get_role (role_name : String) : M Role := fun s =>
  let s := s.record (.getRole role_name)
  match findRole s.aws role_name with
  | some r => (Except.ok r, s)
  | none => (Except.error (Err.clientError "NoSuchEntity"), s)

/-- iam.create_role (the trust document is the fixed Lambda-assume template
and carries no information the claims need, so it is not stored). -/
def iam_create_role (role_name : String) : M Role := fun s =>
  let s := s.record (.createRole role_name)
  match findRole s.aws role_name with
  | some _ => (Except.error (Err.clientError "EntityAlreadyExists"), s)
  | none =>
    let r : Role := ⟨role_name, mkRoleArn s.aws.accountId role_name, []⟩
    (Except.ok r, s.setAws { s.aws with roles := s.aws.roles ++ [r] })

/-- iam.delete_role. -/
def iam_delete_role (role_name : String) : M Unit := fun s =>
  let s := s.record (.deleteRole role_name)
  match findRole s.aws role_name with
  | some _ =>
    (Except.ok (), s.setAws { s.aws with roles := s.aws.roles.filter (fun r => !(r.name == role_name)) })
  | none => (Except.error (Err.clientError "NoSuchEntity"), s)

/-- iam.get_policy. -/
def iam_get_policy (policy_arn : String) : M Policy := fun s =>
  let s := s.record (.getPolicy policy_arn)
  match findPolicyByArn s.aws policy_arn with
  | some p => (Except.ok p, s)
  | none => (Except.error (Err.clientError "NoSuchEntity"), s)

/-- iam.create_policy; `bucket` describes the policy document as in `Policy`. -/
def iam_create_policy (policy_name : String) (bucket : Option String) : M Policy := fun s =>
  let s := s.record (.createPolicy policy_name)
  if policyNameExists s.aws policy_name then
    (Except.error (Err.clientError "EntityAlreadyExists"), s)
  else
    let p : Policy := ⟨policy_name, mkPolicyArn s.aws.accountId policy_name, bucket⟩
    (Except.ok p, s.setAws { s.aws with policies := s.aws.policies ++ [p] })

/-- iam.delete_policy. -/
def iam_delete_policy (policy_arn : String) : M Unit := fun s =>
  let s := s.record (.deletePolicy policy_arn)
  match findPolicyByArn s.aws policy_arn with
  | some _ =>
    (Except.ok (), s.setAws { s.aws with policies := s.aws.policies.filter (fun p => !(p.arn == policy_arn)) })
  | none => (Except.error (Err.clientError "NoSuchEntity"), s)

/-- iam.list_entities_for_policy with EntityFilter='Role': the names of every
role the policy is attached to, in one page. -/
def iam_list_entities_for_policy (policy_arn : String) : M (List String) := fun s =>
  let s := s.record (.listEntitiesForPolicy policy_arn)
  (Except.ok ((s.aws.roles.filter (fun r => r.attached.contains policy_arn)).map (·.name)), s)

/-- iam.detach_role_policy. -/
def iam_detach_role_policy (role_name policy_arn : String) : M Unit := fun s =>
  let s := s.record (.detachRolePolicy role_name policy_arn)
  match findRole s.aws role_name with
  | some _ =>
    (Except.ok (), s.setAws { s.aws with
      roles := updateRoles s.aws.roles role_name
        (fun r => { r with attached := r.attached.filter (fun a => !(a == policy_arn)) }) })
  | none => (Except.error (Err.clientError "NoSuchEntity"), s)

/-- iam.attach_role_policy (idempotent set-insert; both the role and the
policy must exist). -/
def iam_attach_role_policy (role_name policy_arn : String) : M Unit := fun s =>
  let s := s.record (.attachRolePolicy role_name policy_arn)
  match findRole s.aws role_name, findPolicyByArn s.aws policy_arn with
  | some _, some _ =>
    (Except.ok (), s.setAws { s.aws with
      roles := updateRoles s.aws.roles role_name
        (fun r => { r with attached := if r.attached.contains policy_arn then r.attached else r.attached ++ [policy_arn] }) })
  | _, _ => (Except.error (Err.clientError "NoSuchEntity"), s)

/-- iam.list_attached_role_policies: attached managed-policy ARNs, one page. -/
def iam_list_attached_role_policies (role_name : String) : M (List String) := fun s =>
  let s := s.record (.listAttachedRolePolicies role_name)
  match findRole s.aws role_name with
  | some r => (Except.ok r.attached, s)
  | none => (Except.error (Err.clientError "NoSuchEntity"), s)

/-- iam.list_role_policies: inline policy names.  The repository never
creates inline policies, so the provider holds none and the page is empty. -/
def iam_list_role_policies (role_name : String) : M (List String) := fun s =>
  let s := s.record (.listRolePolicies role_name)
  match findRole s.aws role_name with
  | some _ => (Except.ok [], s)
  | none => (Except.error (Err.clientError "NoSuchEntity"), s)

/-- iam.delete_role_policy (inline). -/
def iam_delete_role_policy (role_name policy_name : String) : M Unit := fun s =>
  let s := s.record (.deleteRolePolicy role_name policy_name)
  (Except.ok (), s)

/-- sts.get_caller_identity()['Account']. -/
def sts_get_caller_identity : M String := fun s =>
  let s := s.record .getCallerIdentity
  (Except.ok s.aws.accountId, s)

/-- lambda.get_function. -/
def lambda_get_function (function_name : String) : M LambdaFunction := fun s =>
  let s := s.record (.getFunction function_name)
  match findFunction s.aws function_name with
  | some f => (Except.ok f, s)
  | none => (Except.error (Err.clientError "ResourceNotFoundException"), s)

/-- lambda.create_function with PackageType='Image'.  A new function starts
with no environment variables. -/
def lambda_create_function (function_name ecr_image_uri role_arn : String)
    (memory_size timeout : Nat) (vpc_config : Option VpcConfig) : M String := fun s =>
  let s := s.record (.createFunction function_name)
  match findFunction s.aws function_name with
  | some _ => (Except.error (Err.clientError "ResourceConflictException"), s)
  | none =>
    let f : LambdaFunction :=
      ⟨function_name, mkFunctionArn function_name, ecr_image_uri, role_arn,
        memory_size, timeout, vpc_config, []⟩
    (Except.ok f.arn, s.setAws { s.aws with functions := s.aws.functions ++ [f] })

/-- lambda.update_function_code with ImageUri. -/
def lambda_update_function_code (function_name ecr_image_uri : String) : M String := fun s =>
  let s := s.record (.updateFunctionCode function_name)
  match findFunction s.aws function_name with
  | some f =>
    (Except.ok f.arn, s.setAws { s.aws with
      functions := updateFunctions s.aws.functions function_name
        (fun g => { g with imageUri := ecr_image_uri }) })
  | none => (Except.error (Err.clientError "ResourceNotFoundException"), s)

/-- Keyword arguments of lambda.update_function_configuration; `none` models
a keyword that the call site did not pass. -/
structure UpdateConfigParams where
  roleParam : Option String
  memoryParam : Option Nat
  timeoutParam : Option Nat
  vpcParam : Option VpcConfig
  envParam : Option (List (String × String))
  deriving Repr, DecidableEq

/-- Fields present in the update are overwritten; absent fields keep their
current value. -/
def applyConfigUpdate (f : LambdaFunction) (p : UpdateConfigParams) : LambdaFunction :=
  { f with
    roleArn := p.roleParam.getD f.roleArn
    memorySize := p.memoryParam.getD f.memorySize
    timeout := p.timeoutParam.getD f.timeout
    vpcConfig := match p.vpcParam with | some v => some v | none => f.vpcConfig
    env := p.envParam.getD f.env }

/-- lambda.update_function_configuration. -/
def lambda_update_function_configuration (function_name : String)
    (p : UpdateConfigParams) : M String := fun s =>
  let s := s.record (.updateFunctionConfiguration function_name)
  match findFunction s.aws function_name with
  | some f =>
    (Except.ok f.arn, s.setAws { s.aws with
      functions := updateFunctions s.aws.functions function_name
        (fun g => applyConfigUpdate g p) })
  | none => (Except.error (Err.clientError "ResourceNotFoundException"), s)

/-- lambda.get_function_configuration (read used by the S3 access manager). -/
def lambda_get_function_configuration (function_name : String) : M LambdaFunction := fun s =>
  let s := s.record (.getFunctionConfiguration function_name)
  match findFunction s.aws function_name with
  | some f => (Except.ok f, s)
  | none => (Except.error (Err.clientError "ResourceNotFoundException"), s)

/-- s3.head_bucket: 200 for a reachable bucket, ClientError 403 for an
existing but forbidden bucket, ClientError 404 otherwise. -/
def s3_head_bucket (bucket : String) : M Unit := fun s =>
  let s := s.record (.headBucket bucket)
  if s.aws.s3Buckets.contains bucket then (Except.ok (), s)
  else if s.aws.s3Forbidden.contains bucket then
    (Except.error (Err.clientError "403"), s)
  else
    (Except.error (Err.clientError "404"), s)

/-- ec2.describe_vpcs with VpcIds; an unknown id raises
InvalidVpcID.NotFound. -/
def ec2_describe_vpcs (vpc_ids : List String) : M (List Vpc) := fun s =>
  let s := s.record (.describeVpcs vpc_ids)
  match lookupAll (findVpc s.aws) vpc_ids with
  | some l => (Except.ok l, s)
  | none => (Except.error (Err.clientError "InvalidVpcID.NotFound"), s)

/-- ec2.describe_subnets with SubnetIds; an unknown id raises
InvalidSubnetID.NotFound. -/
def ec2_describe_subnets (subnet_ids : List String) : M (List Subnet) := fun s =>
  let s := s.record (.describeSubnets subnet_ids)
  match lookupAll (findSubnet s.aws) subnet_ids with
  | some l => (Except.ok l, s)
  | none => (Except.error (Err.clientError "InvalidSubnetID.NotFound"), s)

/-- ec2.describe_security_groups with GroupIds; an unknown id raises
InvalidGroup.NotFound. -/
def ec2_describe_security_groups (group_ids : List String) : M (List SecurityGroup) := fun s =>
  let s := s.record (.describeSecurityGroups group_ids)
  match lookupAll (findSecurityGroup s.aws) group_ids with
  | some l => (Except.ok l, s)
  | none => (Except.error (Err.clientError "InvalidGroup.NotFound"), s)

/-! ## VPCConfigurator (src/lambda_deployer/vpc/configurator.py) -/

/-- VPCConfigurator._validate_vpc: describe the VPC, require it to exist and
be available; an InvalidVpcID.NotFound fault is a negative answer, every
other fault is re-raised. -/
def validate_vpc (vpc_id : String) : M Bool :=
  M.tryCatch
    (do
      let vpcs ← ec2_describe_vpcs [vpc_id]
      match vpcs with
      | [] => pure false
      | v :: _ => if !(v.state == "available") then pure false else pure true)
    (fun e =>
      match e with
      | .clientError code =>
        if code == "InvalidVpcID.NotFound" then pure false else M.throw e
      | _ => M.throw e)

/-- VPCConfigurator._validate_subnets: one batch describe call; every subnet
must be returned, belong to `vpc_id`, and be available.  The source loop with
early returns is the conjunction below. -/
def validate_subnets (subnet_ids : List String) (vpc_id : String) : M Bool :=
  M.tryCatch
    (do
      let subnets ← ec2_describe_subnets subnet_ids
      if !(subnets.length == subnet_ids.length) then pure false
      else pure (subnets.all (fun sn => sn.vpcId == vpc_id && sn.state == "available")))
    (fun e =>
      match e with
      | .clientError code =>
        if code == "InvalidSubnetID.NotFound" then pure false else M.throw e
      | _ => M.throw e)

/-- VPCConfigurator._validate_security_groups: as for subnets but with no
availability-state check. -/
def validate_security_groups (security_group_ids : List String) (vpc_id : String) : M Bool :=
  M.tryCatch
    (do
      let sgs ← ec2_describe_security_groups security_group_ids
      if !(sgs.length == security_group_ids.length) then pure false
      else pure (sgs.all (fun sg => sg.vpcId == vpc_id)))
    (fun e =>
      match e with
      | .clientError code =>
        if code == "InvalidGroup.NotFound" then pure false else M.throw e
      | _ => M.throw e)

/-- VPCConfigurator.create_vpc_config.  Security groups are validated only
when the supplied list is truthy (Python `if security_group_ids and not
...`), and the `SecurityGroupIds` key is set under the same truthiness
test. -/
def create_vpc_config (vpc_id : String) (subnet_ids : List String)
    (security_group_ids : Option (List String)) : M VpcConfig := do
  let okVpc ← validate_vpc vpc_id
  if !okVpc then M.throw (.invalidVpc vpc_id)
  else do
    let okSub ← validate_subnets subnet_ids vpc_id
    if !okSub then M.throw (.invalidSubnets subnet_ids)
    else do
      if optListTruthy security_group_ids then do
        let okSg ← validate_security_groups (security_group_ids.getD []) vpc_id
        if !okSg then M.throw (.invalidSecurityGroups (security_group_ids.getD []))
        else pure ()
      else pure ()
      pure (⟨subnet_ids, if optListTruthy security_group_ids then security_group_ids else none⟩ : VpcConfig)

/-! ## IAMRoleManager (src/lambda_deployer/iam/role_manager.py) -/

/-- Body of the `except ClientError` clause of IAMRoleManager._role_exists:
NoSuchEntity means the role is absent, anything else is re-raised. -/
def roleExistsOfClientError (code : String) : Except Err Bool :=
  if code == "NoSuchEntity" then Except.ok false
  else Except.error (Err.clientError code)

/-- IAMRoleManager._role_exists. -/
def role_exists (role_name : String) : M Bool :=
  M.tryCatch
    (do
      let _ ← iam_get_role role_name
      pure true)
    (fun e =>
      match e with
      | .clientError code => M.ofExcept (roleExistsOfClientError code)
      | _ => M.throw e)

/-- IAMRoleManager._get_account_id. -/
def get_account_id : M String := sts_get_caller_identity

/-- Loop body of IAMRoleManager._detach_policy_from_all_entities: detach the
policy from each role of the returned page. -/
def detach_from_each_role (policy_arn : String) : List String → M Unit
  | [] => pure ()
  | nm :: rest => do
    iam_detach_role_policy nm policy_arn
    detach_from_each_role policy_arn rest

/-- IAMRoleManager._detach_policy_from_all_entities (single page;
IsTruncated is false so the pagination loop body never runs). -/
def detach_policy_from_all_entities (policy_arn : String) : M Unit := do
  let names ← iam_list_entities_for_policy policy_arn
  detach_from_each_role policy_arn names

/-- IAMRoleManager._delete_policy: detach everywhere, then delete.  The
source's try/except only logs before re-raising, which changes nothing. -/
def delete_policy (policy_arn : String) : M Unit := do
  detach_policy_from_all_entities policy_arn
  iam_delete_policy policy_arn

/-- IAMRoleManager._create_s3_access_policy: if a policy of the derived name
`{role_name}-s3-access` already exists (detected via get_policy on the
reconstructed ARN), delete it first (NoSuchEntity from the probe is
swallowed); then create the bucket-scoped policy and return its ARN. -/
def create_s3_access_policy (role_name s3_bucket : String) : M String := do
  let policy_name := role_name ++ "-s3-access"
  M.tryCatch
    (do
      let acct ← get_account_id
      let p ← iam_get_policy (mkPolicyArn acct policy_name)
      delete_policy p.arn)
    (fun e =>
      match e with
      | .clientError code =>
        if !(code == "NoSuchEntity") then M.throw e else pure ()
      | _ => M.throw e)
  let p ← iam_create_policy policy_name (some s3_bucket)
  pure p.arn

/-- Loop of IAMRoleManager._detach_all_policies_from_role over the attached
managed policies of the role. -/
def detach_arns_from_role (role_name : String) : List String → M Unit
  | [] => pure ()
  | a :: rest => do
    iam_detach_role_policy role_name a
    detach_arns_from_role role_name rest

/-- Loop of IAMRoleManager._detach_all_policies_from_role over inline policy
names. -/
def delete_inline_policies (role_name : String) : List String → M Unit
  | [] => pure ()
  | nm :: rest => do
    iam_delete_role_policy role_name nm
    delete_inline_policies role_name rest

/-- IAMRoleManager._detach_all_policies_from_role (single pages). -/
def detach_all_policies_from_role (role_name : String) : M Unit := do
  let arns ← iam_list_attached_role_policies role_name
  detach_arns_from_role role_name arns
  let inline_names ← iam_list_role_policies role_name
  delete_inline_policies role_name inline_names

/-- IAMRoleManager._delete_role. -/
def delete_role (role_name : String) : M Unit := do
  detach_all_policies_from_role role_name
  iam_delete_role role_name

/-- IAMRoleManager._create_role: create the role with the fixed trust
document, then create (or, on EntityAlreadyExists, reconstruct the ARN of)
the `{role_name}-basic-execution` policy and attach it; the fixed
`time.sleep(5)` propagation delay has no state effect. -/
def create_role (role_name : String) : M String := do
  let r ← iam_create_role role_name
  let basic_name := role_name ++ "-basic-execution"
  M.tryCatch
    (do
      let p ← iam_create_policy basic_name none
      iam_attach_role_policy role_name p.arn)
    (fun e =>
      match e with
      | .clientError code =>
        if code == "EntityAlreadyExists" then do
          let account_id ← get_account_id
          iam_attach_role_policy role_name (mkPolicyArn account_id basic_name)
        else M.throw e
      | _ => M.throw e)
  pure r.arn

/-- IAMRoleManager.create_or_update_role.  The two if-expressions mirror the
source exactly: the first is the `role_exists = False` reassignment after a
forced delete, the second the create-vs-reuse branch; written with explicit
binds so the elaborated term is a plain bind chain. -/
def create_or_update_role (role_name s3_bucket : String) (force_recreate : Bool) : M String :=
  role_exists role_name >>= fun existed =>
  (if existed && force_recreate then delete_role role_name >>= fun _ => pure false
   else pure existed) >>= fun existsNow =>
  (if !existsNow then create_role role_name
   else iam_get_role role_name >>= fun r => pure r.arn) >>= fun role_arn =>
  create_s3_access_policy role_name s3_bucket >>= fun s3_policy_arn =>
  iam_attach_role_policy role_name s3_policy_arn >>= fun _ =>
  pure role_arn

/-! ## LambdaFunctionDeployer (src/lambda_deployer/lambda_func/function_deployer.py) -/

/-- Body of the `except ClientError` clause of
LambdaFunctionDeployer._function_exists. -/
def functionExistsOfClientError (code : String) : Except Err Bool :=
  if code == "ResourceNotFoundException" then Except.ok false
  else Except.error (Err.clientError code)

/-- LambdaFunctionDeployer._function_exists. -/
def function_exists (function_name : String) : M Bool :=
  M.tryCatch
    (do
      let _ ← lambda_get_function function_name
      pure true)
    (fun e =>
      match e with
      | .clientError code => M.ofExcept (functionExistsOfClientError code)
      | _ => M.throw e)

/-- LambdaFunctionDeployer._create_function (waiter function_active is a
no-op on control-plane state). -/
def create_function (function_name ecr_image_uri role_arn : String)
    (memory_size timeout : Nat) (vpc_config : Option VpcConfig) : M String :=
  lambda_create_function function_name ecr_image_uri role_arn memory_size timeout vpc_config

/-- LambdaFunctionDeployer._update_function_code (waiter function_updated is
a no-op). -/
def update_function_code (function_name ecr_image_uri : String) : M String :=
  lambda_update_function_code function_name ecr_image_uri

/-- LambdaFunctionDeployer._update_function_configuration: Role, MemorySize
and Timeout are always passed; VpcConfig only when truthy; Environment never
(waiter function_updated is a no-op). -/
def update_function_configuration (function_name role_arn : String)
    (memory_size timeout : Nat) (vpc_config : Option VpcConfig) : M String :=
  lambda_update_function_configuration function_name
    ⟨some role_arn, some memory_size, some timeout, vpc_config, none⟩

/-- LambdaFunctionDeployer.deploy_function: update (code then configuration)
when the function exists, create otherwise. -/
def deploy_function (function_name ecr_image_uri role_arn : String)
    (memory_size timeout : Nat) (vpc_config : Option VpcConfig) : M String := do
  let fnExists ← function_exists function_name
  if fnExists then do
    let _ ← update_function_code function_name ecr_image_uri
    update_function_configuration function_name role_arn memory_size timeout vpc_config
  else
    create_function function_name ecr_image_uri role_arn memory_size timeout vpc_config

/-! ## S3AccessManager (src/lambda_deployer/s3/access_manager.py) -/

/-- Body of the `except ClientError` clause of S3AccessManager._bucket_exists:
404 and 403 are both a negative answer, anything else is re-raised. -/
def bucketExistsOfClientError (code : String) : Except Err Bool :=
  if code == "404" then Except.ok false
  else if code == "403" then Except.ok false
  else Except.error (Err.clientError code)

/-- S3AccessManager._bucket_exists. -/
def bucket_exists (bucket_name : String) : M Bool :=
  M.tryCatch
    (do
      s3_head_bucket bucket_name
      pure true)
    (fun e =>
      match e with
      | .clientError code => M.ofExcept (bucketExistsOfClientError code)
      | _ => M.throw e)

/-- Python dict assignment `d[k] = v`: overwrite in place if the key exists,
append otherwise. -/
def dictSet (d : List (String × String)) (k v : String) : List (String × String) :=
  if d.any (fun p => p.1 == k) then
    d.map (fun p => if p.1 == k then (k, v) else p)
  else d ++ [(k, v)]

/-- Python dict lookup. -/
def lookupEnv (d : List (String × String)) (k : String) : Option String :=
  (d.find? (fun p => p.1 == k)).map (·.2)

/-- S3AccessManager._update_lambda_environment: read the current environment
variables, set S3_BUCKET on a copy, write the merged map back
(update_function_configuration with only the Environment keyword), then wait
(no-op).  The source's try/except only logs before re-raising. -/
def update_lambda_environment (function_name s3_bucket : String) : M Unit := do
  let conf ← lambda_get_function_configuration function_name
  let current_env := conf.env
  let updated_env := dictSet current_env "S3_BUCKET" s3_bucket
  let _ ← lambda_update_function_configuration function_name
    ⟨none, none, none, none, some updated_env⟩
  pure ()

/-- S3AccessManager.configure_s3_access. -/
def configure_s3_access (function_name s3_bucket : String) : M Bool := do
  let ex ← bucket_exists s3_bucket
  if !ex then M.throw (.bucketUnavailable s3_bucket)
  else do
    update_lambda_environment function_name s3_bucket
    pure true

/-! ## LambdaDeployer orchestrator (src/lambda_deployer/main.py) -/

/-- Successful deployment record: {function_arn, role_arn}. -/
structure DeployResult where
  function_arn : String
  role_arn : String
  deriving Repr, DecidableEq

/-- LambdaDeployer.deploy: validate parameters, derive the default role name,
build the VPC configuration when a VPC was requested, upsert the role, deploy
the function, configure S3 access. -/
def deploy (ecr_image_uri function_name s3_bucket : String)
    (role_name : Option String) (memory_size timeout : Nat)
    (vpc_id : Option String) (subnet_ids : Option (List String))
    (security_group_ids : Option (List String))
    (force_recreate_role : Bool) : M DeployResult :=
  if ecr_image_uri == "" then M.throw .missingEcrImageUri
  else if function_name == "" then M.throw .missingFunctionName
  else if s3_bucket == "" then M.throw .missingS3Bucket
  else
    let resolved_role_name :=
      if strTruthy role_name then role_name.getD ""
      else "lambda-" ++ function_name ++ "-role"
    (if strTruthy vpc_id then
      (if !optListTruthy subnet_ids then M.throw .missingSubnetIds
       else create_vpc_config (vpc_id.getD "") (subnet_ids.getD []) security_group_ids >>=
         fun cfg => pure (some cfg))
     else pure none) >>= fun vpc_config =>
    create_or_update_role resolved_role_name s3_bucket force_recreate_role >>= fun role_arn =>
    deploy_function function_name ecr_image_uri role_arn memory_size timeout vpc_config >>= fun function_arn =>
    configure_s3_access function_name s3_bucket >>= fun _ =>
    pure (⟨function_arn, role_arn⟩ : DeployResult)

/-! ## Definitions used to state the properties -/

/-- Is this call a lambda.create_function call? -/
def isCreateFunctionCall : ApiCall → Bool
  | .createFunction _ => true
  | _ => false

/-- Is this call a lambda.update_function_code call? -/
def isUpdateFunctionCodeCall : ApiCall → Bool
  | .updateFunctionCode _ => true
  | _ => false

/-- Is this call a lambda.update_function_configuration call? -/
def isUpdateFunctionConfigurationCall : ApiCall → Bool
  | .updateFunctionConfiguration _ => true
  | _ => false

/-- Is this call an ec2.describe_security_groups call? -/
def isDescribeSecurityGroupsCall : ApiCall → Bool
  | .describeSecurityGroups _ => true
  | _ => false

/-- Is this call one of the three mutating compute-service calls? -/
def isComputeWriteCall (c : ApiCall) : Bool :=
  isCreateFunctionCall c || isUpdateFunctionCodeCall c || isUpdateFunctionConfigurationCall c

/-- Number of calls in a trace satisfying `p`. -/
def countCalls (p : ApiCall → Bool) (t : List ApiCall) : Nat :=
  (t.filter p).length

/-- Provider-side well-formedness: every policy ARN attached to a role
refers to an existing managed policy (IAM guarantees this: attaching an
unknown ARN fails and deleting an attached policy requires detaching). -/
def attachedClosedB (a : AwsState) : Bool :=
  a.roles.all (fun r => r.attached.all (fun x => a.policies.any (·.arn == x)))

/-- Outcome of the VPC validation as a pure predicate over the world. -/
def vpcOkB (a : AwsState) (v : String) : Bool :=
  match findVpc a v with
  | none => false
  | some w => w.state == "available"

/-- Outcome of the subnet validation as a pure predicate over the world. -/
def subnetsOkB (a : AwsState) (ids : List String) (v : String) : Bool :=
  match lookupAll (findSubnet a) ids with
  | none => false
  | some l => l.length == ids.length && l.all (fun sn => sn.vpcId == v && sn.state == "available")

/-- Outcome of the security-group validation as a pure predicate over the
world. -/
def securityGroupsOkB (a : AwsState) (ids : List String) (v : String) : Bool :=
  match lookupAll (findSecurityGroup a) ids with
  | none => false
  | some l => l.length == ids.length && l.all (fun sg => sg.vpcId == v)

/-- ARN of the role of this name, when it exists. -/
def roleArnOf (a : AwsState) (n : String) : Option String :=
  (findRole a n).map (·.arn)

/-- Does the role of this name carry this attached policy ARN? -/
def roleHasPolicyB (a : AwsState) (n parn : String) : Bool :=
  match findRole a n with
  | some r => r.attached.contains parn
  | none => false

/-- The managed policies of this name. -/
def policiesNamed (a : AwsState) (nm : String) : List Policy :=
  a.policies.filter (·.name == nm)

/-- Is the policy ARN attached to no role other than `n`? -/
def policyAttachedOnlyToB (a : AwsState) (parn n : String) : Bool :=
  a.roles.all (fun r => !(r.attached.contains parn) || r.name == n)

/-- Environment variable `k` of the function named `f`, when both exist. -/
def envLookupOf (a : AwsState) (f k : String) : Option String :=
  match findFunction a f with
  | some F => lookupEnv F.env k
  | none => none

/-- Effect of the detach loop of `_detach_policy_from_all_entities` on the
role list: every role whose name is listed loses the policy ARN. -/
def detachRolesNamed (roles : List Role) (names : List String) (parn : String) : List Role :=
  roles.map (fun r =>
    if names.contains r.name then
      { r with attached := r.attached.filter (fun x => !(x == parn)) }
    else r)

/-- Frame of the identity-service operations: everything outside IAM is
untouched, the account id is stable, and no mutating compute-service call is
recorded. -/
def IamPreserves (s s' : St) : Prop :=
  s'.aws.accountId = s.aws.accountId ∧
  s'.aws.functions = s.aws.functions ∧
  s'.aws.s3Buckets = s.aws.s3Buckets ∧
  s'.aws.s3Forbidden = s.aws.s3Forbidden ∧
  s'.aws.vpcs = s.aws.vpcs ∧
  s'.aws.subnets = s.aws.subnets ∧
  s'.aws.securityGroups = s.aws.securityGroups ∧
  s'.trace.filter isComputeWriteCall = s.trace.filter isComputeWriteCall

/-- A computation whose every outcome (success or error) satisfies the
identity-service frame. -/
def IamFrame (m : M α) : Prop := ∀ s, IamPreserves s (m s).2

/-- A computation that preserves the well-formedness `attachedClosedB` on
every outcome. -/
def ClosedFrame (m : M α) : Prop :=
  ∀ s, attachedClosedB s.aws = true → attachedClosedB (m s).2.aws = true

/-- Concrete example world used by the witnesses and counterexamples: two
roles both carrying a stale `r1-s3-access` policy scoped to `oldbucket`, an
existing function `f` running `img1` with one environment variable, a
reachable bucket `b`, a forbidden bucket `fb`, and two VPCs with one subnet
and one security group each. -/
def exAws : AwsState :=
  ⟨"123456789012",
    [⟨"r1", mkRoleArn "123456789012" "r1", [mkPolicyArn "123456789012" "r1-s3-access"]⟩,
     ⟨"r2", mkRoleArn "123456789012" "r2", [mkPolicyArn "123456789012" "r1-s3-access"]⟩],
    [⟨"r1-s3-access", mkPolicyArn "123456789012" "r1-s3-access", some "oldbucket"⟩],
    [⟨"f", mkFunctionArn "f", "img1", "arn:aws:iam::123456789012:role/old", 128, 30, none, [("A", "1")]⟩],
    ["b"], ["fb"],
    [⟨"v1", "available"⟩, ⟨"v2", "available"⟩],
    [⟨"s1", "v1", "available"⟩, ⟨"s2", "v2", "available"⟩],
    [⟨"g1", "v1"⟩, ⟨"g2", "v2"⟩]⟩

/-! ## Basic reduction lemmas for the monad -/

@[simp] theorem St.record_aws (s : St) (c : ApiCall) : (s.record c).aws = s.aws := rfl

@[simp] theorem St.record_trace (s : St) (c : ApiCall) :
    (s.record c).trace = s.trace ++ [c] := rfl

@[simp] theorem St.setAws_aws (s : St) (a : AwsState) : (s.setAws a).aws = a := rfl

@[simp] theorem St.setAws_trace (s : St) (a : AwsState) : (s.setAws a).trace = s.trace := rfl

@[simp] theorem M.bind_app (m : M α) (k : α → M β) (s : St) :
    (m >>= k) s =
      match m s with
      | (Except.ok a, s') => k a s'
      | (Except.error e, s') => (Except.error e, s') := rfl

@[simp] theorem M.pure_app (a : α) (s : St) : (pure a : M α) s = (Except.ok a, s) := rfl

@[simp] theorem M.throw_app (e : Err) (s : St) :
    (M.throw e : M α) s = (Except.error e, s) := rfl

@[simp] theorem M.ofExcept_app (r : Except Err α) (s : St) : M.ofExcept r s = (r, s) := rfl

@[simp] theorem M.tryCatch_app (m : M α) (h : Err → M α) (s : St) :
    M.tryCatch m h s =
      match m s with
      | (Except.ok a, s') => (Except.ok a, s')
      | (Except.error e, s') => h e s' := rfl

/-! ## Characterizations of the VPC validators -/

theorem validate_vpc_spec (v : String) (s : St) :
    validate_vpc v s
      = (Except.ok (vpcOkB s.aws v), ⟨s.aws, s.trace ++ [.describeVpcs [v]]⟩) := by
  unfold validate_vpc vpcOkB ec2_describe_vpcs
  cases h : findVpc s.aws v with
  | none => simp [lookupAll, h, St.record]
  | some w =>
    by_cases hb : w.state = "available" <;>
      simp [lookupAll, h, hb, St.record]

theorem validate_subnets_spec (ids : List String) (v : String) (s : St) :
    validate_subnets ids v s
      = (Except.ok (subnetsOkB s.aws ids v), ⟨s.aws, s.trace ++ [.describeSubnets ids]⟩) := by
  unfold validate_subnets subnetsOkB ec2_describe_subnets
  cases h : lookupAll (findSubnet s.aws) ids with
  | none => simp [h, St.record]
  | some l =>
    by_cases hl : l.length = ids.length <;>
      simp [h, hl, St.record]

theorem validate_security_groups_spec (ids : List String) (v : String) (s : St) :
    validate_security_groups ids v s
      = (Except.ok (securityGroupsOkB s.aws ids v), ⟨s.aws, s.trace ++ [.describeSecurityGroups ids]⟩) := by
  unfold validate_security_groups securityGroupsOkB ec2_describe_security_groups
  cases h : lookupAll (findSecurityGroup s.aws) ids with
  | none => simp [h, St.record]
  | some l =>
    by_cases hl : l.length = ids.length <;>
      simp [h, hl, St.record]

theorem create_vpc_config_spec (v : String) (ids : List String)
    (sg : Option (List String)) (s : St) :
    create_vpc_config v ids sg s =
      if vpcOkB s.aws v then
        if subnetsOkB s.aws ids v then
          if optListTruthy sg then
            if securityGroupsOkB s.aws (sg.getD []) v then
              (Except.ok (⟨ids, sg⟩ : VpcConfig),
                ⟨s.aws, s.trace ++ [.describeVpcs [v], .describeSubnets ids, .describeSecurityGroups (sg.getD [])]⟩)
            else
              (Except.error (Err.invalidSecurityGroups (sg.getD [])),
                ⟨s.aws, s.trace ++ [.describeVpcs [v], .describeSubnets ids, .describeSecurityGroups (sg.getD [])]⟩)
          else
            (Except.ok (⟨ids, none⟩ : VpcConfig),
              ⟨s.aws, s.trace ++ [.describeVpcs [v], .describeSubnets ids]⟩)
        else
          (Except.error (Err.invalidSubnets ids),
            ⟨s.aws, s.trace ++ [.describeVpcs [v], .describeSubnets ids]⟩)
      else
        (Except.error (Err.invalidVpc v), ⟨s.aws, s.trace ++ [.describeVpcs [v]]⟩) := by
  by_cases h1 : vpcOkB s.aws v
  case neg => simp [create_vpc_config, validate_vpc_spec, h1]
  case pos =>
    by_cases h2 : subnetsOkB s.aws ids v
    case neg => simp [create_vpc_config, validate_vpc_spec, validate_subnets_spec, h1, h2]
    case pos =>
      by_cases h3 : optListTruthy sg
      case neg =>
        simp [create_vpc_config, validate_vpc_spec, validate_subnets_spec, h1, h2, h3]
      case pos =>
        by_cases h4 : securityGroupsOkB s.aws (sg.getD []) v <;>
          simp [create_vpc_config, validate_vpc_spec, validate_subnets_spec,
            validate_security_groups_spec, h1, h2, h3, h4]

/-! ## Characterizations of the existence checks -/

theorem role_exists_spec (n : String) (s : St) :
    role_exists n s
      = (Except.ok (findRole s.aws n).isSome, ⟨s.aws, s.trace ++ [.getRole n]⟩) := by
  unfold role_exists iam_get_role
  cases h : findRole s.aws n <;>
    simp [h, St.record, roleExistsOfClientError]

theorem function_exists_spec (n : String) (s : St) :
    function_exists n s
      = (Except.ok (findFunction s.aws n).isSome, ⟨s.aws, s.trace ++ [.getFunction n]⟩) := by
  unfold function_exists lambda_get_function
  cases h : findFunction s.aws n <;>
    simp [h, St.record, functionExistsOfClientError]

theorem bucket_exists_spec (b : String) (s : St) :
    bucket_exists b s
      = (Except.ok (s.aws.s3Buckets.contains b), ⟨s.aws, s.trace ++ [.headBucket b]⟩) := by
  unfold bucket_exists s3_head_bucket
  by_cases h1 : b ∈ s.aws.s3Buckets
  · simp [h1, St.record]
  · by_cases h2 : b ∈ s.aws.s3Forbidden <;>
      simp [h1, h2, St.record, bucketExistsOfClientError]

/-! ## Python dict-update lemmas for the environment merge -/

theorem find_map_overwrite (k v : String) :
    ∀ d : List (String × String), d.any (fun p => p.1 == k) = true →
      (d.map (fun p => if p.1 == k then (k, v) else p)).find? (fun p => p.1 == k)
        = some (k, v) := by
  intro d
  induction d with
  | nil => intro h; exact absurd h (by simp)
  | cons hd tl ih =>
    intro h
    rw [List.map_cons]
    by_cases hk : hd.1 = k
    · rw [if_pos (by simp [hk])]
      exact List.find?_cons_of_pos _ (by simp)
    · rw [if_neg (by simp [hk])]
      rw [List.find?_cons_of_neg _ (by simp [hk])]
      apply ih
      rw [List.any_cons] at h
      simpa [hk] using h

theorem find_map_other (k v k' : String) (hne : ¬(k' = k)) :
    ∀ d : List (String × String),
      (d.map (fun p => if p.1 == k then (k, v) else p)).find? (fun p => p.1 == k')
        = d.find? (fun p => p.1 == k') := by
  intro d
  induction d with
  | nil => rfl
  | cons hd tl ih =>
    rw [List.map_cons]
    by_cases hk : hd.1 = k
    · rw [if_pos (by simp [hk])]
      rw [List.find?_cons_of_neg _ (by simp only [beq_iff_eq]; exact fun hh => hne hh.symm)]
      rw [@List.find?_cons_of_neg _ (fun p => p.1 == k') hd tl
        (by simp only [beq_iff_eq, hk]; exact fun hh => hne hh.symm)]
      exact ih
    · rw [if_neg (by simp [hk])]
      by_cases hk' : hd.1 = k'
      · rw [List.find?_cons_of_pos _ (by simp [hk']), List.find?_cons_of_pos _ (by simp [hk'])]
      · rw [List.find?_cons_of_neg _ (by simp [hk']), List.find?_cons_of_neg _ (by simp [hk']),
          ih]

theorem find_append_single_self (k v : String) :
    ∀ d : List (String × String), d.any (fun p => p.1 == k) = false →
      (d ++ [(k, v)]).find? (fun p => p.1 == k) = some (k, v) := by
  intro d
  induction d with
  | nil =>
    intro _
    exact List.find?_cons_of_pos _ (by simp)
  | cons hd tl ih =>
    intro h
    rw [List.any_cons] at h
    cases hb : (hd.1 == k) with
    | true => rw [hb] at h; simp at h
    | false =>
      rw [List.cons_append, List.find?_cons_of_neg _ (by simp [hb])]
      apply ih
      rw [hb] at h
      simpa using h

theorem find_append_single_other (k v k' : String) (hne : ¬(k' = k)) :
    ∀ d : List (String × String),
      (d ++ [(k, v)]).find? (fun p => p.1 == k') = d.find? (fun p => p.1 == k') := by
  intro d
  induction d with
  | nil =>
    rw [List.nil_append, List.find?_nil]
    exact List.find?_cons_of_neg _ (by simp only [beq_iff_eq]; exact fun hh => hne hh.symm)
  | cons hd tl ih =>
    cases hb : (hd.1 == k') with
    | true =>
      rw [List.cons_append,
        @List.find?_cons_of_pos _ (fun p => p.1 == k') hd (tl ++ [(k, v)]) hb,
        @List.find?_cons_of_pos _ (fun p => p.1 == k') hd tl hb]
    | false =>
      rw [List.cons_append,
        @List.find?_cons_of_neg _ (fun p => p.1 == k') hd (tl ++ [(k, v)]) (by simp [hb]),
        @List.find?_cons_of_neg _ (fun p => p.1 == k') hd tl (by simp [hb]), ih]

theorem lookupEnv_dictSet_self (d : List (String × String)) (k v : String) :
    lookupEnv (dictSet d k v) k = some v := by
  unfold dictSet lookupEnv
  cases hA : d.any (fun p => p.1 == k) with
  | true => rw [if_pos rfl, find_map_overwrite k v d hA]; rfl
  | false => rw [if_neg (by simp), find_append_single_self k v d hA]; rfl

theorem lookupEnv_dictSet_other (d : List (String × String)) (k v k' : String)
    (hne : ¬(k' = k)) :
    lookupEnv (dictSet d k v) k' = lookupEnv d k' := by
  unfold dictSet lookupEnv
  cases hA : d.any (fun p => p.1 == k) with
  | true => rw [if_pos rfl, find_map_other k v k' hne d]
  | false => rw [if_neg (by simp), find_append_single_other k v k' hne d]

/-! ## Characterizations of the S3 access manager -/

theorem configure_s3_access_unreachable (f b : String) (s : St)
    (h : s.aws.s3Buckets.contains b = false) :
    configure_s3_access f b s
      = (Except.error (Err.bucketUnavailable b), ⟨s.aws, s.trace ++ [.headBucket b]⟩) := by
  unfold configure_s3_access
  rw [M.bind_app, bucket_exists_spec, h]
  simp

theorem configure_s3_access_ok (f b : String) (F : LambdaFunction) (s : St)
    (hb : s.aws.s3Buckets.contains b = true)
    (hf : findFunction s.aws f = some F) :
    configure_s3_access f b s
      = (Except.ok true,
          ⟨{ s.aws with functions := (updateFunctions s.aws.functions f (fun g => applyConfigUpdate g ⟨none, none, none, none, some (dictSet F.env "S3_BUCKET" b)⟩)) },
            s.trace ++ [.headBucket b, .getFunctionConfiguration f, .updateFunctionConfiguration f]⟩) := by
  unfold configure_s3_access update_lambda_environment lambda_get_function_configuration
    lambda_update_function_configuration
  rw [M.bind_app, bucket_exists_spec, hb]
  simp [hf, St.record, St.setAws]

theorem configure_s3_access_no_function (f b : String) (s : St)
    (hb : s.aws.s3Buckets.contains b = true)
    (hf : findFunction s.aws f = none) :
    configure_s3_access f b s
      = (Except.error (Err.clientError "ResourceNotFoundException"),
          ⟨s.aws, s.trace ++ [.headBucket b, .getFunctionConfiguration f]⟩) := by
  unfold configure_s3_access update_lambda_environment lambda_get_function_configuration
  rw [M.bind_app, bucket_exists_spec, hb]
  simp [hf, St.record]

/-! ## Frame lemmas: identity-service operations never touch the compute
service -/

theorem iamPreserves_refl (s : St) : IamPreserves s s :=
  ⟨rfl, rfl, rfl, rfl, rfl, rfl, rfl, rfl⟩

theorem iamPreserves_trans {s₁ s₂ s₃ : St}
    (h1 : IamPreserves s₁ s₂) (h2 : IamPreserves s₂ s₃) : IamPreserves s₁ s₃ := by
  obtain ⟨a1, b1, c1, d1, e1, f1, g1, t1⟩ := h1
  obtain ⟨a2, b2, c2, d2, e2, f2, g2, t2⟩ := h2
  exact ⟨a2.trans a1, b2.trans b1, c2.trans c1, d2.trans d1, e2.trans e1,
    f2.trans f1, g2.trans g1, t2.trans t1⟩

theorem iamFrame_pure (a : α) : IamFrame (pure a : M α) :=
  fun s => iamPreserves_refl s

theorem iamFrame_throw (e : Err) : IamFrame (M.throw e : M α) :=
  fun s => iamPreserves_refl s

theorem iamFrame_ofExcept (r : Except Err α) : IamFrame (M.ofExcept r) :=
  fun s => iamPreserves_refl s

theorem iamFrame_bind {m : M α} {k : α → M β}
    (hm : IamFrame m) (hk : ∀ a, IamFrame (k a)) : IamFrame (m >>= k) := by
  intro s
  rw [M.bind_app]
  have hP := hm s
  rcases hms : m s with ⟨res, s₁⟩
  rw [hms] at hP
  cases res with
  | ok a => exact iamPreserves_trans hP (hk a s₁)
  | error e => exact hP

theorem iamFrame_tryCatch {m : M α} {h : Err → M α}
    (hm : IamFrame m) (hh : ∀ e, IamFrame (h e)) : IamFrame (M.tryCatch m h) := by
  intro s
  rw [M.tryCatch_app]
  have hP := hm s
  rcases hms : m s with ⟨res, s₁⟩
  rw [hms] at hP
  cases res with
  | ok a => exact hP
  | error e => exact iamPreserves_trans hP (hh e s₁)

theorem filter_computeWrite_record (t : List ApiCall) (c : ApiCall)
    (hc : isComputeWriteCall c = false) :
    (t ++ [c]).filter isComputeWriteCall = t.filter isComputeWriteCall := by
  rw [List.filter_append]
  simp [hc]

theorem iamFrame_iam_get_role (n : String) : IamFrame (iam_get_role n) := by
  intro s
  unfold iam_get_role
  dsimp only
  cases h : findRole s.aws n <;>
    simp [IamPreserves, h, St.record, St.setAws, isComputeWriteCall,
      isCreateFunctionCall, isUpdateFunctionCodeCall, isUpdateFunctionConfigurationCall,
      List.filter_append]

theorem iamFrame_iam_create_role (n : String) : IamFrame (iam_create_role n) := by
  intro s
  unfold iam_create_role
  dsimp only
  cases h : findRole s.aws n <;>
    simp [IamPreserves, h, St.record, St.setAws, isComputeWriteCall,
      isCreateFunctionCall, isUpdateFunctionCodeCall, isUpdateFunctionConfigurationCall,
      List.filter_append]

theorem iamFrame_iam_delete_role (n : String) : IamFrame (iam_delete_role n) := by
  intro s
  unfold iam_delete_role
  dsimp only
  cases h : findRole s.aws n <;>
    simp [IamPreserves, h, St.record, St.setAws, isComputeWriteCall,
      isCreateFunctionCall, isUpdateFunctionCodeCall, isUpdateFunctionConfigurationCall,
      List.filter_append]

theorem iamFrame_iam_get_policy (arn : String) : IamFrame (iam_get_policy arn) := by
  intro s
  unfold iam_get_policy
  dsimp only
  cases h : findPolicyByArn s.aws arn <;>
    simp [IamPreserves, h, St.record, St.setAws, isComputeWriteCall,
      isCreateFunctionCall, isUpdateFunctionCodeCall, isUpdateFunctionConfigurationCall,
      List.filter_append]

theorem iamFrame_iam_create_policy (n : String) (bucket : Option String) :
    IamFrame (iam_create_policy n bucket) := by
  intro s
  unfold iam_create_policy
  dsimp only
  by_cases h : policyNameExists s.aws n <;>
    simp [IamPreserves, h, St.record, St.setAws, isComputeWriteCall,
      isCreateFunctionCall, isUpdateFunctionCodeCall, isUpdateFunctionConfigurationCall,
      List.filter_append]

theorem iamFrame_iam_delete_policy (arn : String) : IamFrame (iam_delete_policy arn) := by
  intro s
  unfold iam_delete_policy
  dsimp only
  cases h : findPolicyByArn s.aws arn <;>
    simp [IamPreserves, h, St.record, St.setAws, isComputeWriteCall,
      isCreateFunctionCall, isUpdateFunctionCodeCall, isUpdateFunctionConfigurationCall,
      List.filter_append]

theorem iamFrame_iam_list_entities_for_policy (arn : String) :
    IamFrame (iam_list_entities_for_policy arn) := by
  intro s
  unfold iam_list_entities_for_policy
  simp [IamPreserves, St.record, isComputeWriteCall,
    isCreateFunctionCall, isUpdateFunctionCodeCall, isUpdateFunctionConfigurationCall,
    List.filter_append]

theorem iamFrame_iam_detach_role_policy (n arn : String) :
    IamFrame (iam_detach_role_policy n arn) := by
  intro s
  unfold iam_detach_role_policy
  dsimp only
  cases h : findRole s.aws n <;>
    simp [IamPreserves, h, St.record, St.setAws, isComputeWriteCall,
      isCreateFunctionCall, isUpdateFunctionCodeCall, isUpdateFunctionConfigurationCall,
      List.filter_append]

theorem iamFrame_iam_attach_role_policy (n arn : String) :
    IamFrame (iam_attach_role_policy n arn) := by
  intro s
  unfold iam_attach_role_policy
  dsimp only
  cases h1 : findRole s.aws n <;> cases h2 : findPolicyByArn s.aws arn <;>
    simp [IamPreserves, h1, h2, St.record, St.setAws, isComputeWriteCall,
      isCreateFunctionCall, isUpdateFunctionCodeCall, isUpdateFunctionConfigurationCall,
      List.filter_append]

theorem iamFrame_iam_list_attached_role_policies (n : String) :
    IamFrame (iam_list_attached_role_policies n) := by
  intro s
  unfold iam_list_attached_role_policies
  dsimp only
  cases h : findRole s.aws n <;>
    simp [IamPreserves, h, St.record, isComputeWriteCall,
      isCreateFunctionCall, isUpdateFunctionCodeCall, isUpdateFunctionConfigurationCall,
      List.filter_append]

theorem iamFrame_iam_list_role_policies (n : String) :
    IamFrame (iam_list_role_policies n) := by
  intro s
  unfold iam_list_role_policies
  dsimp only
  cases h : findRole s.aws n <;>
    simp [IamPreserves, h, St.record, isComputeWriteCall,
      isCreateFunctionCall, isUpdateFunctionCodeCall, isUpdateFunctionConfigurationCall,
      List.filter_append]

theorem iamFrame_iam_delete_role_policy (n pn : String) :
    IamFrame (iam_delete_role_policy n pn) := by
  intro s
  unfold iam_delete_role_policy
  simp [IamPreserves, St.record, isComputeWriteCall,
    isCreateFunctionCall, isUpdateFunctionCodeCall, isUpdateFunctionConfigurationCall,
    List.filter_append]

theorem iamFrame_sts_get_caller_identity : IamFrame sts_get_caller_identity := by
  intro s
  unfold sts_get_caller_identity
  simp [IamPreserves, St.record, isComputeWriteCall,
    isCreateFunctionCall, isUpdateFunctionCodeCall, isUpdateFunctionConfigurationCall,
    List.filter_append]

theorem iamFrame_get_account_id : IamFrame get_account_id :=
  iamFrame_sts_get_caller_identity

theorem iamFrame_role_exists (n : String) : IamFrame (role_exists n) := by
  unfold role_exists
  apply iamFrame_tryCatch
  · exact iamFrame_bind (iamFrame_iam_get_role n) (fun _ => iamFrame_pure _)
  · intro e
    cases e <;> first
      | exact iamFrame_ofExcept _
      | exact iamFrame_throw _

theorem iamFrame_detach_from_each_role (parn : String) (names : List String) :
    IamFrame (detach_from_each_role parn names) := by
  induction names with
  | nil => exact iamFrame_pure ()
  | cons nm rest ih =>
    exact iamFrame_bind (iamFrame_iam_detach_role_policy nm parn) (fun _ => ih)

theorem iamFrame_detach_policy_from_all_entities (parn : String) :
    IamFrame (detach_policy_from_all_entities parn) := by
  unfold detach_policy_from_all_entities
  exact iamFrame_bind (iamFrame_iam_list_entities_for_policy parn)
    (fun names => iamFrame_detach_from_each_role parn names)

theorem iamFrame_delete_policy (parn : String) : IamFrame (delete_policy parn) := by
  unfold delete_policy
  exact iamFrame_bind (iamFrame_detach_policy_from_all_entities parn)
    (fun _ => iamFrame_iam_delete_policy parn)

theorem iamFrame_create_s3_access_policy (rn b : String) :
    IamFrame (create_s3_access_policy rn b) := by
  unfold create_s3_access_policy
  apply iamFrame_bind
  · apply iamFrame_tryCatch
    · apply iamFrame_bind iamFrame_get_account_id
      intro acct
      exact iamFrame_bind (iamFrame_iam_get_policy _) (fun p => iamFrame_delete_policy _)
    · intro e
      cases e
      case clientError code =>
        dsimp only
        split
        · exact iamFrame_throw _
        · exact iamFrame_pure _
      all_goals exact iamFrame_throw _
  · intro _
    exact iamFrame_bind (iamFrame_iam_create_policy _ _) (fun p => iamFrame_pure _)

theorem iamFrame_detach_arns_from_role (n : String) (arns : List String) :
    IamFrame (detach_arns_from_role n arns) := by
  induction arns with
  | nil => exact iamFrame_pure ()
  | cons a rest ih =>
    exact iamFrame_bind (iamFrame_iam_detach_role_policy n a) (fun _ => ih)

theorem iamFrame_delete_inline_policies (n : String) (names : List String) :
    IamFrame (delete_inline_policies n names) := by
  induction names with
  | nil => exact iamFrame_pure ()
  | cons nm rest ih =>
    exact iamFrame_bind (iamFrame_iam_delete_role_policy n nm) (fun _ => ih)

theorem iamFrame_detach_all_policies_from_role (n : String) :
    IamFrame (detach_all_policies_from_role n) := by
  unfold detach_all_policies_from_role
  apply iamFrame_bind (iamFrame_iam_list_attached_role_policies n)
  intro arns
  apply iamFrame_bind (iamFrame_detach_arns_from_role n arns)
  intro _
  apply iamFrame_bind (iamFrame_iam_list_role_policies n)
  intro inls
  exact iamFrame_delete_inline_policies n inls

theorem iamFrame_delete_role (n : String) : IamFrame (delete_role n) := by
  unfold delete_role
  exact iamFrame_bind (iamFrame_detach_all_policies_from_role n)
    (fun _ => iamFrame_iam_delete_role n)

theorem iamFrame_create_role (n : String) : IamFrame (create_role n) := by
  unfold create_role
  apply iamFrame_bind (iamFrame_iam_create_role n)
  intro r
  apply iamFrame_bind
  · apply iamFrame_tryCatch
    · exact iamFrame_bind (iamFrame_iam_create_policy _ _)
        (fun p => iamFrame_iam_attach_role_policy _ _)
    · intro e
      cases e
      case clientError code =>
        dsimp only
        split
        · exact iamFrame_bind iamFrame_get_account_id
            (fun acct => iamFrame_iam_attach_role_policy _ _)
        · exact iamFrame_throw _
      all_goals exact iamFrame_throw _
  · intro _
    exact iamFrame_pure _

theorem iamFrame_create_or_update_role (rn b : String) (force : Bool) :
    IamFrame (create_or_update_role rn b force) := by
  unfold create_or_update_role
  apply iamFrame_bind (iamFrame_role_exists rn)
  intro existed
  apply iamFrame_bind
  · split
    · exact iamFrame_bind (iamFrame_delete_role rn) (fun _ => iamFrame_pure _)
    · exact iamFrame_pure _
  · intro existsNow
    apply iamFrame_bind
    · split
      · exact iamFrame_create_role rn
      · exact iamFrame_bind (iamFrame_iam_get_role rn) (fun r => iamFrame_pure _)
    · intro role_arn
      apply iamFrame_bind (iamFrame_create_s3_access_policy rn b)
      intro parn
      exact iamFrame_bind (iamFrame_iam_attach_role_policy rn parn) (fun _ => iamFrame_pure _)

/-! ## Effect lemmas for the IAM success paths -/

theorem string_append_cancel_left {s a b : String} (h : s ++ a = s ++ b) : a = b := by
  have h2 := congrArg String.data h
  rw [String.data_append, String.data_append] at h2
  have h3 := List.append_cancel_left h2
  cases a; cases b; simp at h3; simp [h3]

theorem findRole_updateRoles (roles : List Role) (n : String) (f : Role → Role)
    (hf : ∀ r, (f r).name = r.name) (m : String) :
    (updateRoles roles n f).find? (fun r => r.name == m)
      = Option.map (fun r => if r.name == n then f r else r)
          (roles.find? (fun r => r.name == m)) := by
  unfold updateRoles
  rw [List.find?_map]
  have hp : ((fun r : Role => r.name == m) ∘ (fun r => if r.name == n then f r else r))
      = (fun r : Role => r.name == m) := by
    funext r
    by_cases h : r.name = n <;> simp [Function.comp, h, hf]
  rw [hp]

theorem findFunction_updateFunctions (fs : List LambdaFunction) (n : String)
    (f : LambdaFunction → LambdaFunction) (hf : ∀ g, (f g).name = g.name) (m : String) :
    (updateFunctions fs n f).find? (fun g => g.name == m)
      = Option.map (fun g => if g.name == n then f g else g)
          (fs.find? (fun g => g.name == m)) := by
  unfold updateFunctions
  rw [List.find?_map]
  have hp : ((fun g : LambdaFunction => g.name == m) ∘ (fun g => if g.name == n then f g else g))
      = (fun g : LambdaFunction => g.name == m) := by
    funext g
    by_cases h : g.name = n <;> simp [Function.comp, h, hf]
  rw [hp]

theorem filter_bang_idem (l : List String) (x : String) :
    (l.filter (fun a => !(a == x))).filter (fun a => !(a == x))
      = l.filter (fun a => !(a == x)) := by
  rw [List.filter_filter]
  congr 1
  funext a
  simp [Bool.and_self]

theorem detachRolesNamed_nil (roles : List Role) (parn : String) :
    detachRolesNamed roles [] parn = roles := by
  unfold detachRolesNamed
  simp

theorem detachRolesNamed_cons (roles : List Role) (nm : String) (rest : List String)
    (parn : String) :
    detachRolesNamed
        (updateRoles roles nm (fun r => { r with attached := r.attached.filter (fun x => !(x == parn)) }))
        rest parn
      = detachRolesNamed roles (nm :: rest) parn := by
  unfold detachRolesNamed updateRoles
  rw [List.map_map]
  apply List.map_congr_left
  intro r _
  by_cases h1 : r.name = nm
  · by_cases h2 : rest.contains r.name = true
    · simp [Function.comp, h1, h2, filter_bang_idem]
    · simp [Function.comp, h1, h2]
  · by_cases h2 : rest.contains r.name = true
    · simp [Function.comp, h1, h2]
    · simp [Function.comp, h1, h2]

theorem mem_detachRolesNamed {roles : List Role} {names : List String} {parn : String}
    {r' : Role} (h : r' ∈ detachRolesNamed roles names parn) :
    ∃ r ∈ roles,
      r' = (if names.contains r.name then
        { r with attached := r.attached.filter (fun x => !(x == parn)) } else r) := by
  unfold detachRolesNamed at h
  rw [List.mem_map] at h
  obtain ⟨r, hr, heq⟩ := h
  exact ⟨r, hr, heq.symm⟩

theorem detachRolesNamed_namearn (roles : List Role) (names : List String) (parn : String) :
    (detachRolesNamed roles names parn).map (fun r => (r.name, r.arn))
      = roles.map (fun r => (r.name, r.arn)) := by
  unfold detachRolesNamed
  rw [List.map_map]
  apply List.map_congr_left
  intro r _
  by_cases h : r.name ∈ names <;> simp [Function.comp, h]

theorem detachRolesNamed_clears (roles : List Role) (parn : String) :
    ∀ r' ∈ detachRolesNamed roles
        ((roles.filter (fun r => r.attached.contains parn)).map (fun r => r.name)) parn,
      ¬ parn ∈ r'.attached := by
  intro r' h hmem
  obtain ⟨r, hr, heq⟩ := mem_detachRolesNamed h
  by_cases hc : ((roles.filter (fun q => q.attached.contains parn)).map (fun q => q.name)).contains r.name = true
  · rw [if_pos hc] at heq
    rw [heq] at hmem
    simp only [List.mem_filter] at hmem
    simp at hmem
  · rw [if_neg hc] at heq
    apply hc
    have hin : r ∈ roles.filter (fun q => q.attached.contains parn) := by
      rw [List.mem_filter]
      constructor
      · exact hr
      · show r.attached.contains parn = true
        have hpm : parn ∈ r.attached := heq ▸ hmem
        simpa using hpm
    have hmm : r.name ∈ (roles.filter (fun q => q.attached.contains parn)).map (fun q => q.name) :=
      List.mem_map_of_mem _ hin
    simpa using hmm

theorem detach_from_each_role_ok (parn : String) :
    ∀ (names : List String) (s : St),
      (∀ nm ∈ names, ∃ r ∈ s.aws.roles, r.name = nm) →
      detach_from_each_role parn names s
        = (Except.ok (), ⟨{ s.aws with roles := detachRolesNamed s.aws.roles names parn },
            s.trace ++ names.map (fun nm => ApiCall.detachRolePolicy nm parn)⟩) := by
  intro names
  induction names with
  | nil =>
    intro s _
    show (pure () : M Unit) s = _
    rw [M.pure_app]
    rw [detachRolesNamed_nil]
    simp
  | cons nm rest ih =>
    intro s hex
    show (iam_detach_role_policy nm parn >>= fun _ => detach_from_each_role parn rest) s = _
    rw [M.bind_app]
    have hnm : (findRole s.aws nm).isSome = true := by
      obtain ⟨r, hr, hname⟩ := hex nm (by simp)
      rw [findRole, List.find?_isSome]
      exact ⟨r, hr, by simp [hname]⟩
    obtain ⟨r₀, hr₀⟩ := Option.isSome_iff_exists.mp hnm
    have hstep : iam_detach_role_policy nm parn s
        = (Except.ok (),
            ⟨{ s.aws with roles := (updateRoles s.aws.roles nm (fun r => { r with attached := r.attached.filter (fun x => !(x == parn)) })) },
              s.trace ++ [.detachRolePolicy nm parn]⟩) := by
      unfold iam_detach_role_policy
      simp [St.record, St.setAws, hr₀]
    have hex' : ∀ nm' ∈ rest,
        ∃ r ∈ (updateRoles s.aws.roles nm (fun r => { r with attached := r.attached.filter (fun x => !(x == parn)) })), r.name = nm' := by
      intro nm' hmem
      obtain ⟨r, hr, hname⟩ := hex nm' (by simp [hmem])
      refine ⟨if r.name == nm then { r with attached := r.attached.filter (fun x => !(x == parn)) } else r,
        List.mem_map_of_mem _ hr, ?_⟩
      have hn : (if r.name == nm then ({ r with attached := r.attached.filter (fun x => !(x == parn)) } : Role) else r).name = r.name := by
        by_cases h : r.name = nm <;> simp [h]
      rw [hn]
      exact hname
    rw [hstep]
    dsimp only
    have hmain := ih ⟨{ s.aws with roles := (updateRoles s.aws.roles nm (fun r => { r with attached := r.attached.filter (fun x => !(x == parn)) })) }, s.trace ++ [.detachRolePolicy nm parn]⟩ hex'
    rw [hmain]
    dsimp only
    rw [detachRolesNamed_cons]
    simp [List.append_assoc]

theorem iam_list_entities_for_policy_spec (parn : String) (s : St) :
    iam_list_entities_for_policy parn s
      = (Except.ok ((s.aws.roles.filter (fun r => r.attached.contains parn)).map (fun r => r.name)),
          ⟨s.aws, s.trace ++ [.listEntitiesForPolicy parn]⟩) := by
  unfold iam_list_entities_for_policy
  simp [St.record]

theorem delete_policy_ok (parn : String) (s : St) (p : Policy)
    (hp : findPolicyByArn s.aws parn = some p) :
    delete_policy parn s
      = (Except.ok (),
          ⟨{ s.aws with roles := (detachRolesNamed s.aws.roles ((s.aws.roles.filter (fun r => r.attached.contains parn)).map (fun r => r.name)) parn), policies := (s.aws.policies.filter (fun q => !(q.arn == parn))) },
            (s.trace ++ [.listEntitiesForPolicy parn]
              ++ ((s.aws.roles.filter (fun r => r.attached.contains parn)).map (fun r => r.name)).map (fun nm => ApiCall.detachRolePolicy nm parn)
              ++ [.deletePolicy parn])⟩) := by
  unfold delete_policy detach_policy_from_all_entities
  rw [M.bind_app, M.bind_app, iam_list_entities_for_policy_spec]
  dsimp only
  have hex : ∀ nm ∈ (s.aws.roles.filter (fun r => r.attached.contains parn)).map (fun r => r.name),
      ∃ r ∈ s.aws.roles, r.name = nm := by
    intro nm hmem
    rw [List.mem_map] at hmem
    obtain ⟨r, hr, hname⟩ := hmem
    exact ⟨r, (List.mem_filter.mp hr).1, hname⟩
  have hdet := detach_from_each_role_ok parn
    ((s.aws.roles.filter (fun r => r.attached.contains parn)).map (fun r => r.name))
    ⟨s.aws, s.trace ++ [.listEntitiesForPolicy parn]⟩ hex
  rw [hdet]
  dsimp only
  unfold iam_delete_policy
  have hp' : s.aws.policies.find? (fun q => q.arn == parn) = some p := hp
  simp [St.record, St.setAws, findPolicyByArn, hp', List.append_assoc]

theorem sts_spec (s : St) :
    sts_get_caller_identity s
      = (Except.ok s.aws.accountId, ⟨s.aws, s.trace ++ [.getCallerIdentity]⟩) := by
  unfold sts_get_caller_identity
  simp [St.record]

theorem create_s3_access_policy_spec (rn b : String) (s : St) :
    create_s3_access_policy rn b s =
      (match findPolicyByArn s.aws (mkPolicyArn s.aws.accountId (rn ++ "-s3-access")) with
       | some p =>
         if (s.aws.policies.filter (fun q => !(q.arn == p.arn))).any (fun q => q.name == rn ++ "-s3-access") then
           (Except.error (Err.clientError "EntityAlreadyExists"),
             ⟨{ s.aws with roles := (detachRolesNamed s.aws.roles ((s.aws.roles.filter (fun r => r.attached.contains p.arn)).map (fun r => r.name)) p.arn), policies := (s.aws.policies.filter (fun q => !(q.arn == p.arn))) },
               (s.trace ++ [.getCallerIdentity, .getPolicy (mkPolicyArn s.aws.accountId (rn ++ "-s3-access")), .listEntitiesForPolicy p.arn] ++ ((s.aws.roles.filter (fun r => r.attached.contains p.arn)).map (fun r => r.name)).map (fun nm => ApiCall.detachRolePolicy nm p.arn) ++ [.deletePolicy p.arn, .createPolicy (rn ++ "-s3-access")])⟩)
         else
           (Except.ok (mkPolicyArn s.aws.accountId (rn ++ "-s3-access")),
             ⟨{ s.aws with roles := (detachRolesNamed s.aws.roles ((s.aws.roles.filter (fun r => r.attached.contains p.arn)).map (fun r => r.name)) p.arn), policies := ((s.aws.policies.filter (fun q => !(q.arn == p.arn))) ++ [⟨rn ++ "-s3-access", mkPolicyArn s.aws.accountId (rn ++ "-s3-access"), some b⟩]) },
               (s.trace ++ [.getCallerIdentity, .getPolicy (mkPolicyArn s.aws.accountId (rn ++ "-s3-access")), .listEntitiesForPolicy p.arn] ++ ((s.aws.roles.filter (fun r => r.attached.contains p.arn)).map (fun r => r.name)).map (fun nm => ApiCall.detachRolePolicy nm p.arn) ++ [.deletePolicy p.arn, .createPolicy (rn ++ "-s3-access")])⟩)
       | none =>
         if s.aws.policies.any (fun q => q.name == rn ++ "-s3-access") then
           (Except.error (Err.clientError "EntityAlreadyExists"),
             ⟨s.aws, (s.trace ++ [.getCallerIdentity, .getPolicy (mkPolicyArn s.aws.accountId (rn ++ "-s3-access")), .createPolicy (rn ++ "-s3-access")])⟩)
         else
           (Except.ok (mkPolicyArn s.aws.accountId (rn ++ "-s3-access")),
             ⟨{ s.aws with policies := (s.aws.policies ++ [⟨rn ++ "-s3-access", mkPolicyArn s.aws.accountId (rn ++ "-s3-access"), some b⟩]) },
               (s.trace ++ [.getCallerIdentity, .getPolicy (mkPolicyArn s.aws.accountId (rn ++ "-s3-access")), .createPolicy (rn ++ "-s3-access")])⟩)) := by
  unfold create_s3_access_policy get_account_id
  cases hp : findPolicyByArn s.aws (mkPolicyArn s.aws.accountId (rn ++ "-s3-access")) with
  | none =>
    rw [M.bind_app, M.tryCatch_app, M.bind_app, sts_spec]
    dsimp only
    rw [M.bind_app]
    have hgp : iam_get_policy (mkPolicyArn s.aws.accountId (rn ++ "-s3-access"))
        ⟨s.aws, s.trace ++ [.getCallerIdentity]⟩
        = (Except.error (Err.clientError "NoSuchEntity"),
            ⟨s.aws, s.trace ++ [.getCallerIdentity, .getPolicy (mkPolicyArn s.aws.accountId (rn ++ "-s3-access"))]⟩) := by
      unfold iam_get_policy
      simp [St.record, hp]
    rw [hgp]
    dsimp only
    rw [if_neg (by decide), M.pure_app]
    dsimp only
    rw [M.bind_app]
    by_cases hn : s.aws.policies.any (fun q => q.name == rn ++ "-s3-access") = true
    · have hcp : iam_create_policy (rn ++ "-s3-access") (some b)
          ⟨s.aws, s.trace ++ [.getCallerIdentity, .getPolicy (mkPolicyArn s.aws.accountId (rn ++ "-s3-access"))]⟩
          = (Except.error (Err.clientError "EntityAlreadyExists"),
              ⟨s.aws, s.trace ++ [.getCallerIdentity, .getPolicy (mkPolicyArn s.aws.accountId (rn ++ "-s3-access")), .createPolicy (rn ++ "-s3-access")]⟩) := by
        unfold iam_create_policy policyNameExists
        simp [St.record, hn, List.append_assoc]
      rw [hcp]
      simp [hn]
    · have hcp : iam_create_policy (rn ++ "-s3-access") (some b)
          ⟨s.aws, s.trace ++ [.getCallerIdentity, .getPolicy (mkPolicyArn s.aws.accountId (rn ++ "-s3-access"))]⟩
          = (Except.ok (⟨rn ++ "-s3-access", mkPolicyArn s.aws.accountId (rn ++ "-s3-access"), some b⟩ : Policy),
              ⟨{ s.aws with policies := (s.aws.policies ++ [⟨rn ++ "-s3-access", mkPolicyArn s.aws.accountId (rn ++ "-s3-access"), some b⟩]) },
                s.trace ++ [.getCallerIdentity, .getPolicy (mkPolicyArn s.aws.accountId (rn ++ "-s3-access")), .createPolicy (rn ++ "-s3-access")]⟩) := by
        unfold iam_create_policy policyNameExists
        simp [St.record, St.setAws, hn, List.append_assoc]
      rw [hcp]
      simp [hn]
  | some p =>
    have hparn : p.arn = mkPolicyArn s.aws.accountId (rn ++ "-s3-access") := by
      have hps := List.find?_some hp
      simpa using hps
    rw [M.bind_app, M.tryCatch_app, M.bind_app, sts_spec]
    dsimp only
    rw [M.bind_app]
    have hgp : iam_get_policy (mkPolicyArn s.aws.accountId (rn ++ "-s3-access"))
        ⟨s.aws, s.trace ++ [.getCallerIdentity]⟩
        = (Except.ok p,
            ⟨s.aws, s.trace ++ [.getCallerIdentity, .getPolicy (mkPolicyArn s.aws.accountId (rn ++ "-s3-access"))]⟩) := by
      unfold iam_get_policy
      simp [St.record, hp]
    rw [hgp]
    dsimp only
    have hdp := delete_policy_ok p.arn
      ⟨s.aws, s.trace ++ [.getCallerIdentity, .getPolicy (mkPolicyArn s.aws.accountId (rn ++ "-s3-access"))]⟩
      p (by rw [hparn]; exact hp)
    rw [hdp]
    dsimp only
    rw [M.bind_app]
    by_cases hn : (s.aws.policies.filter (fun q => !(q.arn == p.arn))).any (fun q => q.name == rn ++ "-s3-access") = true
    · have hcp : iam_create_policy (rn ++ "-s3-access") (some b)
          ⟨{ s.aws with roles := (detachRolesNamed s.aws.roles ((s.aws.roles.filter (fun r => r.attached.contains p.arn)).map (fun r => r.name)) p.arn), policies := (s.aws.policies.filter (fun q => !(q.arn == p.arn))) },
            s.trace ++ [.getCallerIdentity, .getPolicy (mkPolicyArn s.aws.accountId (rn ++ "-s3-access"))] ++ [.listEntitiesForPolicy p.arn] ++ ((s.aws.roles.filter (fun r => r.attached.contains p.arn)).map (fun r => r.name)).map (fun nm => ApiCall.detachRolePolicy nm p.arn) ++ [.deletePolicy p.arn]⟩
          = (Except.error (Err.clientError "EntityAlreadyExists"),
              ⟨{ s.aws with roles := (detachRolesNamed s.aws.roles ((s.aws.roles.filter (fun r => r.attached.contains p.arn)).map (fun r => r.name)) p.arn), policies := (s.aws.policies.filter (fun q => !(q.arn == p.arn))) },
                s.trace ++ [.getCallerIdentity, .getPolicy (mkPolicyArn s.aws.accountId (rn ++ "-s3-access")), .listEntitiesForPolicy p.arn] ++ ((s.aws.roles.filter (fun r => r.attached.contains p.arn)).map (fun r => r.name)).map (fun nm => ApiCall.detachRolePolicy nm p.arn) ++ [.deletePolicy p.arn, .createPolicy (rn ++ "-s3-access")]⟩) := by
        unfold iam_create_policy policyNameExists
        simp [St.record, hn, List.append_assoc]
      rw [hcp]
      simp [hn, List.append_assoc]
    · have hcp : iam_create_policy (rn ++ "-s3-access") (some b)
          ⟨{ s.aws with roles := (detachRolesNamed s.aws.roles ((s.aws.roles.filter (fun r => r.attached.contains p.arn)).map (fun r => r.name)) p.arn), policies := (s.aws.policies.filter (fun q => !(q.arn == p.arn))) },
            s.trace ++ [.getCallerIdentity, .getPolicy (mkPolicyArn s.aws.accountId (rn ++ "-s3-access"))] ++ [.listEntitiesForPolicy p.arn] ++ ((s.aws.roles.filter (fun r => r.attached.contains p.arn)).map (fun r => r.name)).map (fun nm => ApiCall.detachRolePolicy nm p.arn) ++ [.deletePolicy p.arn]⟩
          = (Except.ok (⟨rn ++ "-s3-access", mkPolicyArn s.aws.accountId (rn ++ "-s3-access"), some b⟩ : Policy),
              ⟨{ s.aws with roles := (detachRolesNamed s.aws.roles ((s.aws.roles.filter (fun r => r.attached.contains p.arn)).map (fun r => r.name)) p.arn), policies := ((s.aws.policies.filter (fun q => !(q.arn == p.arn))) ++ [⟨rn ++ "-s3-access", mkPolicyArn s.aws.accountId (rn ++ "-s3-access"), some b⟩]) },
                s.trace ++ [.getCallerIdentity, .getPolicy (mkPolicyArn s.aws.accountId (rn ++ "-s3-access")), .listEntitiesForPolicy p.arn] ++ ((s.aws.roles.filter (fun r => r.attached.contains p.arn)).map (fun r => r.name)).map (fun nm => ApiCall.detachRolePolicy nm p.arn) ++ [.deletePolicy p.arn, .createPolicy (rn ++ "-s3-access")]⟩) := by
        unfold iam_create_policy policyNameExists
        simp [St.record, St.setAws, hn, List.append_assoc]
      rw [hcp]
      simp [hn, List.append_assoc]

theorem updateRoles_namearn (roles : List Role) (n : String) (f : Role → Role)
    (hf : ∀ r, (f r).name = r.name ∧ (f r).arn = r.arn) :
    (updateRoles roles n f).map (fun r => (r.name, r.arn))
      = roles.map (fun r => (r.name, r.arn)) := by
  unfold updateRoles
  rw [List.map_map]
  apply List.map_congr_left
  intro r _
  by_cases h : r.name = n <;> simp [Function.comp, h, (hf r).1, (hf r).2]

theorem roleArnOf_congr (roles₁ : List Role) :
    ∀ (roles₂ : List Role),
      roles₁.map (fun r => (r.name, r.arn)) = roles₂.map (fun r => (r.name, r.arn)) →
      ∀ n : String,
        (roles₁.find? (fun r => r.name == n)).map (fun r => r.arn)
          = (roles₂.find? (fun r => r.name == n)).map (fun r => r.arn) := by
  induction roles₁ with
  | nil =>
    intro roles₂ h n
    have h2 : roles₂ = [] := by
      cases roles₂ with
      | nil => rfl
      | cons x xs => simp at h
    rw [h2]
  | cons r₁ t₁ ih =>
    intro roles₂ h n
    cases roles₂ with
    | nil => simp at h
    | cons r₂ t₂ =>
      rw [List.map_cons, List.map_cons] at h
      have hhd := List.head_eq_of_cons_eq h
      have htl := List.tail_eq_of_cons_eq h
      have hname : r₁.name = r₂.name := (Prod.mk.injEq _ _ _ _).mp hhd |>.1
      have harn : r₁.arn = r₂.arn := (Prod.mk.injEq _ _ _ _).mp hhd |>.2
      by_cases hn : r₁.name = n
      · rw [List.find?_cons_of_pos _ (by simp [hn]),
          List.find?_cons_of_pos _ (by simp [hname ▸ hn])]
        simp [harn]
      · rw [List.find?_cons_of_neg _ (by simp [hn]),
          List.find?_cons_of_neg _ (by simp [hname ▸ hn])]
        exact ih t₂ htl n

theorem iam_attach_role_policy_inv (n arn : String) (s s' : St) (u : Unit)
    (h : iam_attach_role_policy n arn s = (Except.ok u, s')) :
    (findRole s.aws n).isSome = true ∧
    s' = ⟨{ s.aws with roles := (updateRoles s.aws.roles n (fun r => { r with attached := if r.attached.contains arn then r.attached else r.attached ++ [arn] })) },
      s.trace ++ [.attachRolePolicy n arn]⟩ := by
  unfold iam_attach_role_policy at h
  cases h1 : findRole s.aws n with
  | none => simp [St.record, h1] at h
  | some r₀ =>
    cases h2 : findPolicyByArn s.aws arn with
    | none => simp [St.record, h1, h2] at h
    | some q =>
      simp only [St.record, h1, h2] at h
      rw [Prod.mk.injEq] at h
      exact ⟨by simp [h1], h.2.symm⟩

theorem create_s3_access_policy_ok (rn b : String) (s : St) (a : String) (s' : St)
    (h : create_s3_access_policy rn b s = (Except.ok a, s')) :
    a = mkPolicyArn s.aws.accountId (rn ++ "-s3-access")
    ∧ policiesNamed s'.aws (rn ++ "-s3-access") = [⟨rn ++ "-s3-access", a, some b⟩]
    ∧ findPolicyByArn s'.aws a = some ⟨rn ++ "-s3-access", a, some b⟩
    ∧ s'.aws.accountId = s.aws.accountId
    ∧ s'.aws.roles.map (fun r => (r.name, r.arn)) = s.aws.roles.map (fun r => (r.name, r.arn))
    ∧ (attachedClosedB s.aws = true → ∀ r' ∈ s'.aws.roles, ¬ a ∈ r'.attached) := by
  rw [create_s3_access_policy_spec] at h
  cases hp : findPolicyByArn s.aws (mkPolicyArn s.aws.accountId (rn ++ "-s3-access")) with
  | none =>
    rw [hp] at h
    dsimp only at h
    by_cases hn : s.aws.policies.any (fun q => q.name == rn ++ "-s3-access") = true
    · rw [if_pos hn] at h
      simp at h
    · rw [if_neg hn] at h
      have ha : a = mkPolicyArn s.aws.accountId (rn ++ "-s3-access") := by
        have := congrArg Prod.fst h
        simpa using this.symm
      have hs : s' = ⟨{ s.aws with policies := (s.aws.policies ++ [⟨rn ++ "-s3-access", mkPolicyArn s.aws.accountId (rn ++ "-s3-access"), some b⟩]) },
          (s.trace ++ [.getCallerIdentity, .getPolicy (mkPolicyArn s.aws.accountId (rn ++ "-s3-access")), .createPolicy (rn ++ "-s3-access")])⟩ := by
        have := congrArg Prod.snd h
        simpa using this.symm
      subst ha
      subst hs
      refine ⟨rfl, ?_, ?_, rfl, rfl, ?_⟩
      · unfold policiesNamed
        rw [List.filter_append]
        have hz : s.aws.policies.filter (fun q => q.name == rn ++ "-s3-access") = [] := by
          rw [List.filter_eq_nil_iff]
          intro q hq
          rw [Bool.not_eq_true]
          by_cases hq2 : (q.name == rn ++ "-s3-access") = true
          · exact absurd (List.any_eq_true.mpr ⟨q, hq, hq2⟩) hn
          · simpa using hq2
        rw [hz]
        simp
      · unfold findPolicyByArn
        rw [List.find?_append]
        have hz : s.aws.policies.find? (fun q => q.arn == mkPolicyArn s.aws.accountId (rn ++ "-s3-access")) = none := hp
        rw [hz]
        simp
      · intro hclosed r' hr' hmem
        have hcl := (List.all_eq_true.mp hclosed) r' hr'
        have hex := (List.all_eq_true.mp hcl) _ hmem
        rw [List.any_eq_true] at hex
        obtain ⟨q, hq, hqa⟩ := hex
        have : s.aws.policies.find? (fun q => q.arn == mkPolicyArn s.aws.accountId (rn ++ "-s3-access")) = none := hp
        rw [List.find?_eq_none] at this
        exact this q hq hqa
  | some p =>
    rw [hp] at h
    dsimp only at h
    have hparn : p.arn = mkPolicyArn s.aws.accountId (rn ++ "-s3-access") := by
      have hps := List.find?_some hp
      simpa using hps
    by_cases hn : (s.aws.policies.filter (fun q => !(q.arn == p.arn))).any (fun q => q.name == rn ++ "-s3-access") = true
    · rw [if_pos hn] at h
      simp at h
    · rw [if_neg hn] at h
      have ha : a = mkPolicyArn s.aws.accountId (rn ++ "-s3-access") := by
        have := congrArg Prod.fst h
        simpa using this.symm
      have hs : s' = ⟨{ s.aws with roles := (detachRolesNamed s.aws.roles ((s.aws.roles.filter (fun r => r.attached.contains p.arn)).map (fun r => r.name)) p.arn), policies := ((s.aws.policies.filter (fun q => !(q.arn == p.arn))) ++ [⟨rn ++ "-s3-access", mkPolicyArn s.aws.accountId (rn ++ "-s3-access"), some b⟩]) },
          (s.trace ++ [.getCallerIdentity, .getPolicy (mkPolicyArn s.aws.accountId (rn ++ "-s3-access")), .listEntitiesForPolicy p.arn] ++ ((s.aws.roles.filter (fun r => r.attached.contains p.arn)).map (fun r => r.name)).map (fun nm => ApiCall.detachRolePolicy nm p.arn) ++ [.deletePolicy p.arn, .createPolicy (rn ++ "-s3-access")])⟩ := by
        have := congrArg Prod.snd h
        simpa using this.symm
      subst ha
      subst hs
      refine ⟨rfl, ?_, ?_, rfl, ?_, ?_⟩
      · unfold policiesNamed
        rw [List.filter_append]
        have hz : (s.aws.policies.filter (fun q => !(q.arn == p.arn))).filter (fun q => q.name == rn ++ "-s3-access") = [] := by
          rw [List.filter_eq_nil_iff]
          intro q hq
          rw [Bool.not_eq_true]
          by_cases hq2 : (q.name == rn ++ "-s3-access") = true
          · exact absurd (List.any_eq_true.mpr ⟨q, hq, hq2⟩) hn
          · simpa using hq2
        rw [hz]
        simp
      · unfold findPolicyByArn
        rw [List.find?_append]
        have hz : (s.aws.policies.filter (fun q => !(q.arn == p.arn))).find? (fun q => q.arn == mkPolicyArn s.aws.accountId (rn ++ "-s3-access")) = none := by
          rw [List.find?_eq_none]
          intro q hq hqa
          have hq2 := (List.mem_filter.mp hq).2
          rw [← hparn] at hqa
          simp at hqa hq2
          exact hq2 hqa
        rw [hz]
        simp
      · exact detachRolesNamed_namearn s.aws.roles _ p.arn
      · intro _ r' hr' hmem
        rw [← hparn] at hmem
        exact detachRolesNamed_clears s.aws.roles p.arn r' hr' hmem

/-! ## Preservation of the attached-policy well-formedness -/

theorem attachedClosedB_iff (a : AwsState) :
    attachedClosedB a = true ↔
      ∀ r ∈ a.roles, ∀ x ∈ r.attached, ∃ q ∈ a.policies, q.arn = x := by
  unfold attachedClosedB
  simp [List.all_eq_true, List.any_eq_true]

theorem closedFrame_bind {m : M α} {k : α → M β}
    (hm : ClosedFrame m) (hk : ∀ a, ClosedFrame (k a)) : ClosedFrame (m >>= k) := by
  intro s hc
  rw [M.bind_app]
  have hP := hm s hc
  rcases hms : m s with ⟨res, s₁⟩
  rw [hms] at hP
  cases res with
  | ok a => exact hk a s₁ hP
  | error e => exact hP

theorem closedFrame_tryCatch {m : M α} {h : Err → M α}
    (hm : ClosedFrame m) (hh : ∀ e, ClosedFrame (h e)) : ClosedFrame (M.tryCatch m h) := by
  intro s hc
  rw [M.tryCatch_app]
  have hP := hm s hc
  rcases hms : m s with ⟨res, s₁⟩
  rw [hms] at hP
  cases res with
  | ok a => exact hP
  | error e => exact hh e s₁ hP

theorem closedFrame_pure (a : α) : ClosedFrame (pure a : M α) := fun _ hc => hc

theorem closedFrame_throw (e : Err) : ClosedFrame (M.throw e : M α) := fun _ hc => hc

theorem closedFrame_ofExcept (r : Except Err α) : ClosedFrame (M.ofExcept r) := fun _ hc => hc

theorem closedFrame_iam_get_role (n : String) : ClosedFrame (iam_get_role n) := by
  intro s hc
  unfold iam_get_role
  dsimp only
  cases h : findRole s.aws n <;> simpa [St.record, h] using hc

theorem closedFrame_iam_get_policy (arn : String) : ClosedFrame (iam_get_policy arn) := by
  intro s hc
  unfold iam_get_policy
  dsimp only
  cases h : findPolicyByArn s.aws arn <;> simpa [St.record, h] using hc

theorem closedFrame_iam_list_attached_role_policies (n : String) :
    ClosedFrame (iam_list_attached_role_policies n) := by
  intro s hc
  unfold iam_list_attached_role_policies
  dsimp only
  cases h : findRole s.aws n <;> simpa [St.record, h] using hc

theorem closedFrame_iam_list_role_policies (n : String) :
    ClosedFrame (iam_list_role_policies n) := by
  intro s hc
  unfold iam_list_role_policies
  dsimp only
  cases h : findRole s.aws n <;> simpa [St.record, h] using hc

theorem closedFrame_iam_delete_role_policy (n pn : String) :
    ClosedFrame (iam_delete_role_policy n pn) := by
  intro s hc
  unfold iam_delete_role_policy
  simpa [St.record] using hc

theorem closedFrame_sts_get_caller_identity : ClosedFrame sts_get_caller_identity := by
  intro s hc
  rw [sts_spec]
  exact hc

theorem closedFrame_get_account_id : ClosedFrame get_account_id :=
  closedFrame_sts_get_caller_identity

theorem closedFrame_iam_create_role (n : String) : ClosedFrame (iam_create_role n) := by
  intro s hc
  unfold iam_create_role
  dsimp only
  cases h : findRole s.aws n with
  | some r => simpa [St.record, h] using hc
  | none =>
    simp only [St.record, St.setAws, h]
    rw [attachedClosedB_iff] at hc ⊢
    intro r' hr' x hx
    rcases List.mem_append.mp hr' with hold | hnew
    · exact hc r' hold x hx
    · simp at hnew
      rw [hnew] at hx
      simp at hx

theorem closedFrame_iam_delete_role (n : String) : ClosedFrame (iam_delete_role n) := by
  intro s hc
  unfold iam_delete_role
  dsimp only
  cases h : findRole s.aws n with
  | none => simpa [St.record, h] using hc
  | some r =>
    simp only [St.record, St.setAws, h]
    rw [attachedClosedB_iff] at hc ⊢
    intro r' hr' x hx
    exact hc r' (List.mem_filter.mp hr').1 x hx

theorem closedFrame_iam_create_policy (n : String) (bucket : Option String) :
    ClosedFrame (iam_create_policy n bucket) := by
  intro s hc
  unfold iam_create_policy
  dsimp only
  by_cases h : policyNameExists s.aws n = true
  · simpa [St.record, h] using hc
  · simp only [St.record, St.setAws]
    rw [if_neg h]
    dsimp only
    rw [attachedClosedB_iff] at hc ⊢
    intro r' hr' x hx
    obtain ⟨q, hq, hqa⟩ := hc r' hr' x hx
    exact ⟨q, List.mem_append_left _ hq, hqa⟩

theorem closedFrame_iam_detach_role_policy (n arn : String) :
    ClosedFrame (iam_detach_role_policy n arn) := by
  intro s hc
  unfold iam_detach_role_policy
  dsimp only
  cases h : findRole s.aws n with
  | none => simpa [St.record, h] using hc
  | some r =>
    simp only [St.record, St.setAws, h]
    rw [attachedClosedB_iff] at hc ⊢
    intro r' hr' x hx
    unfold updateRoles at hr'
    rw [List.mem_map] at hr'
    obtain ⟨r₀, hr₀, heq⟩ := hr'
    by_cases hb : r₀.name = n
    · rw [← heq] at hx
      simp only [hb, beq_self_eq_true, if_pos] at hx
      have hx2 := (List.mem_filter.mp hx).1
      exact hc r₀ hr₀ x hx2
    · rw [← heq] at hx
      simp only [hb] at hx
      have hx2 : x ∈ r₀.attached := by
        have hbne : (r₀.name == n) = false := by simp [hb]
        simpa [hbne] using hx
      exact hc r₀ hr₀ x hx2

theorem closedFrame_iam_attach_role_policy (n arn : String) :
    ClosedFrame (iam_attach_role_policy n arn) := by
  intro s hc
  unfold iam_attach_role_policy
  dsimp only
  cases h1 : findRole s.aws n with
  | none => simpa [St.record, h1] using hc
  | some r =>
    cases h2 : findPolicyByArn s.aws arn with
    | none => simpa [St.record, h1, h2] using hc
    | some q =>
      simp only [St.record, St.setAws, h1, h2]
      rw [attachedClosedB_iff] at hc ⊢
      intro r' hr' x hx
      unfold updateRoles at hr'
      rw [List.mem_map] at hr'
      obtain ⟨r₀, hr₀, heq⟩ := hr'
      have hq : q ∈ s.aws.policies := List.mem_of_find?_eq_some h2
      have hqa : q.arn = arn := by
        have := List.find?_some h2
        simpa using this
      by_cases hb : r₀.name = n
      · rw [← heq] at hx
        simp only [hb, beq_self_eq_true, if_pos] at hx
        by_cases hcont : r₀.attached.contains arn = true
        · rw [if_pos hcont] at hx
          exact hc r₀ hr₀ x hx
        · rw [if_neg hcont] at hx
          rcases List.mem_append.mp hx with hold | hnewx
          · exact hc r₀ hr₀ x hold
          · simp at hnewx
            rw [hnewx]
            exact ⟨q, hq, hqa⟩
      · rw [← heq] at hx
        have hbne : (r₀.name == n) = false := by simp [hb]
        have hx2 : x ∈ r₀.attached := by simpa [hbne] using hx
        exact hc r₀ hr₀ x hx2

theorem closedFrame_role_exists (n : String) : ClosedFrame (role_exists n) := by
  unfold role_exists
  apply closedFrame_tryCatch
  · exact closedFrame_bind (closedFrame_iam_get_role n) (fun _ => closedFrame_pure _)
  · intro e
    cases e <;> first
      | exact closedFrame_ofExcept _
      | exact closedFrame_throw _

theorem closedFrame_detach_arns_from_role (n : String) (arns : List String) :
    ClosedFrame (detach_arns_from_role n arns) := by
  induction arns with
  | nil => exact closedFrame_pure ()
  | cons a rest ih =>
    exact closedFrame_bind (closedFrame_iam_detach_role_policy n a) (fun _ => ih)

theorem closedFrame_delete_inline_policies (n : String) (names : List String) :
    ClosedFrame (delete_inline_policies n names) := by
  induction names with
  | nil => exact closedFrame_pure ()
  | cons nm rest ih =>
    exact closedFrame_bind (closedFrame_iam_delete_role_policy n nm) (fun _ => ih)

theorem closedFrame_detach_all_policies_from_role (n : String) :
    ClosedFrame (detach_all_policies_from_role n) := by
  unfold detach_all_policies_from_role
  apply closedFrame_bind (closedFrame_iam_list_attached_role_policies n)
  intro arns
  apply closedFrame_bind (closedFrame_detach_arns_from_role n arns)
  intro _
  apply closedFrame_bind (closedFrame_iam_list_role_policies n)
  intro inls
  exact closedFrame_delete_inline_policies n inls

theorem closedFrame_delete_role (n : String) : ClosedFrame (delete_role n) := by
  unfold delete_role
  exact closedFrame_bind (closedFrame_detach_all_policies_from_role n)
    (fun _ => closedFrame_iam_delete_role n)

theorem closedFrame_create_role (n : String) : ClosedFrame (create_role n) := by
  unfold create_role
  apply closedFrame_bind (closedFrame_iam_create_role n)
  intro r
  apply closedFrame_bind
  · apply closedFrame_tryCatch
    · exact closedFrame_bind (closedFrame_iam_create_policy _ _)
        (fun p => closedFrame_iam_attach_role_policy _ _)
    · intro e
      cases e
      case clientError code =>
        dsimp only
        split
        · exact closedFrame_bind closedFrame_get_account_id
            (fun acct => closedFrame_iam_attach_role_policy _ _)
        · exact closedFrame_throw _
      all_goals exact closedFrame_throw _
  · intro _
    exact closedFrame_pure _

theorem closedFrame_delete_policy (parn : String) : ClosedFrame (delete_policy parn) := by
  intro s hc
  cases hp : findPolicyByArn s.aws parn with
  | some p =>
    rw [delete_policy_ok parn s p hp]
    dsimp only
    rw [attachedClosedB_iff] at hc ⊢
    intro r' hr' x hx
    obtain ⟨r, hr, heq⟩ := mem_detachRolesNamed hr'
    by_cases hcont : ((s.aws.roles.filter (fun q => q.attached.contains parn)).map (fun q => q.name)).contains r.name = true
    · rw [if_pos hcont] at heq
      rw [heq] at hx
      have hx1 := (List.mem_filter.mp hx).1
      have hx2 := (List.mem_filter.mp hx).2
      obtain ⟨q, hq, hqa⟩ := hc r hr x hx1
      refine ⟨q, ?_, hqa⟩
      rw [List.mem_filter]
      refine ⟨hq, ?_⟩
      simp only [Bool.not_eq_eq_eq_not, Bool.not_true, beq_eq_false_iff_ne, ne_eq]
      intro hqp
      have hxp : x = parn := hqa.symm.trans hqp
      rw [hxp] at hx2
      simp at hx2
    · rw [if_neg hcont] at heq
      rw [heq] at hx
      have hnp : ¬ parn ∈ r.attached := by
        intro hparn
        apply hcont
        have hin : r ∈ s.aws.roles.filter (fun q => q.attached.contains parn) := by
          rw [List.mem_filter]
          exact ⟨hr, by simpa using hparn⟩
        have : r.name ∈ (s.aws.roles.filter (fun q => q.attached.contains parn)).map (fun q => q.name) :=
          List.mem_map_of_mem _ hin
        simpa using this
      obtain ⟨q, hq, hqa⟩ := hc r hr x hx
      refine ⟨q, ?_, hqa⟩
      rw [List.mem_filter]
      refine ⟨hq, ?_⟩
      simp only [Bool.not_eq_eq_eq_not, Bool.not_true, beq_eq_false_iff_ne, ne_eq]
      intro hqp
      have hxp : x = parn := hqa.symm.trans hqp
      rw [hxp] at hx
      exact hnp hx
  | none =>
    have hnames : (s.aws.roles.filter (fun r => r.attached.contains parn)).map (fun r => r.name) = [] := by
      rw [List.map_eq_nil_iff, List.filter_eq_nil_iff]
      intro r hr
      rw [Bool.not_eq_true]
      by_cases hcont : r.attached.contains parn = true
      · exfalso
        have hmem : parn ∈ r.attached := by simpa using hcont
        rw [attachedClosedB_iff] at hc
        obtain ⟨q, hq, hqa⟩ := hc r hr parn hmem
        have hnone : s.aws.policies.find? (fun q => q.arn == parn) = none := hp
        rw [List.find?_eq_none] at hnone
        exact hnone q hq (by simp [hqa])
      · simpa using hcont
    unfold delete_policy detach_policy_from_all_entities
    rw [M.bind_app, M.bind_app, iam_list_entities_for_policy_spec]
    dsimp only
    rw [hnames]
    have hdet := detach_from_each_role_ok parn [] ⟨s.aws, s.trace ++ [.listEntitiesForPolicy parn]⟩ (by simp)
    rw [hdet]
    dsimp only
    rw [detachRolesNamed_nil]
    unfold iam_delete_policy
    have hp' : s.aws.policies.find? (fun q => q.arn == parn) = none := hp
    simp [St.record, findPolicyByArn, hp']
    exact hc

/-! ## Success characterization of create_or_update_role -/

theorem upsert_suffix_ok (rn b ra : String) (t : St) (res : Except Err String) (sF : St)
    (h : (create_s3_access_policy rn b >>= fun a => iam_attach_role_policy rn a >>= fun _ => pure ra) t = (res, sF))
    (hok : res.isOk = true) :
    res = Except.ok ra
    ∧ (policiesNamed sF.aws (rn ++ "-s3-access")).length = 1
    ∧ (policiesNamed sF.aws (rn ++ "-s3-access")).all (fun p => p.bucket == some b) = true
    ∧ roleHasPolicyB sF.aws rn (mkPolicyArn t.aws.accountId (rn ++ "-s3-access")) = true
    ∧ (attachedClosedB t.aws = true →
        policyAttachedOnlyToB sF.aws (mkPolicyArn t.aws.accountId (rn ++ "-s3-access")) rn = true)
    ∧ roleArnOf sF.aws rn = roleArnOf t.aws rn := by
  rw [M.bind_app] at h
  rcases h1 : create_s3_access_policy rn b t with ⟨res1, t1⟩
  rw [h1] at h
  cases res1 with
  | error e =>
    dsimp only at h
    rw [Prod.mk.injEq] at h
    rw [← h.1] at hok
    simp [Except.isOk, Except.toBool] at hok
  | ok a =>
    obtain ⟨ha, hnamed, hfind, hacct, hnamearn, hclear⟩ := create_s3_access_policy_ok rn b t a t1 h1
    dsimp only at h
    rw [M.bind_app] at h
    rcases h2 : iam_attach_role_policy rn a t1 with ⟨res2, t2⟩
    rw [h2] at h
    cases res2 with
    | error e =>
      dsimp only at h
      rw [Prod.mk.injEq] at h
      rw [← h.1] at hok
      simp [Except.isOk, Except.toBool] at hok
    | ok u =>
      obtain ⟨hr4some, ht2⟩ := iam_attach_role_policy_inv rn a t1 t2 u h2
      dsimp only at h
      rw [Prod.mk.injEq] at h
      obtain ⟨hres, hsF⟩ := h
      subst hsF
      subst ht2
      obtain ⟨r4, hr4⟩ := Option.isSome_iff_exists.mp hr4some
      have hr4name : (r4.name == rn) = true := by
        have := List.find?_some hr4
        simpa using this
      constructor
      · exact hres.symm
      constructor
      · show (policiesNamed t1.aws (rn ++ "-s3-access")).length = 1
        rw [hnamed]
        rfl
      constructor
      · show (policiesNamed t1.aws (rn ++ "-s3-access")).all (fun p => p.bucket == some b) = true
        rw [hnamed]
        simp
      constructor
      · rw [show mkPolicyArn t.aws.accountId (rn ++ "-s3-access") = a from ha.symm]
        unfold roleHasPolicyB findRole
        dsimp only
        rw [M.pure_app]
        dsimp only
        rw [findRole_updateRoles t1.aws.roles rn
          (fun r => { r with attached := if r.attached.contains a then r.attached else r.attached ++ [a] })
          (fun r => rfl) rn]
        rw [show t1.aws.roles.find? (fun r => r.name == rn) = some r4 from hr4]
        rw [Option.map_some']
        dsimp only
        rw [if_pos hr4name]
        dsimp only
        by_cases hcont : r4.attached.contains a = true
        · rw [if_pos hcont]
          exact hcont
        · rw [if_neg hcont]
          simp
      constructor
      · intro hC
        rw [show mkPolicyArn t.aws.accountId (rn ++ "-s3-access") = a from ha.symm]
        unfold policyAttachedOnlyToB updateRoles
        rw [M.pure_app]
        dsimp only
        rw [List.all_eq_true]
        intro r' hr'
        rw [List.mem_map] at hr'
        obtain ⟨r₀, hr₀, heq⟩ := hr'
        by_cases hb2 : r₀.name = rn
        · rw [← heq]
          simp [hb2]
        · have hbne : (r₀.name == rn) = false := by simp [hb2]
          have hnomem := hclear hC r₀ hr₀
          have hcontf : r₀.attached.contains a = false := by
            rw [← Bool.not_eq_true]
            intro hcc
            exact hnomem (by simpa using hcc)
          rw [← heq]
          simp [hbne]
          exact hnomem
      · unfold roleArnOf findRole
        dsimp only
        have h5 := updateRoles_namearn t1.aws.roles rn
          (fun r => { r with attached := if r.attached.contains a then r.attached else r.attached ++ [a] })
          (fun r => ⟨rfl, rfl⟩)
        have h6 := roleArnOf_congr _ _ (h5.trans hnamearn) rn
        exact h6

/-- Transport of the upsert-suffix characterization back to the entry state
of `create_or_update_role`: the account id and the well-formedness invariant
travel along the prefix. -/
theorem upsert_transport (rn b ra : String) (s t : St) (res : Except Err String) (sF : St)
    (h : (create_s3_access_policy rn b >>= fun a => iam_attach_role_policy rn a >>= fun _ => pure ra) t = (res, sF))
    (hok : res.isOk = true)
    (hacct : t.aws.accountId = s.aws.accountId)
    (hclosed : attachedClosedB s.aws = true → attachedClosedB t.aws = true) :
    res = Except.ok ra
    ∧ (policiesNamed sF.aws (rn ++ "-s3-access")).length = 1
    ∧ (policiesNamed sF.aws (rn ++ "-s3-access")).all (fun p => p.bucket == some b) = true
    ∧ roleHasPolicyB sF.aws rn (mkPolicyArn s.aws.accountId (rn ++ "-s3-access")) = true
    ∧ (attachedClosedB s.aws = true →
        policyAttachedOnlyToB sF.aws (mkPolicyArn s.aws.accountId (rn ++ "-s3-access")) rn = true)
    ∧ roleArnOf sF.aws rn = roleArnOf t.aws rn := by
  obtain ⟨h1, h2, h3, h4, h5, h6⟩ := upsert_suffix_ok rn b ra t res sF h hok
  rw [hacct] at h4 h5
  exact ⟨h1, h2, h3, h4, fun hC => h5 (hclosed hC), h6⟩

/-- Full characterization of a successful `create_or_update_role` run: the
role ends up with exactly one `{role_name}-s3-access` managed policy, scoped
to the requested bucket and attached to the role; on a well-formed world the
policy is attached to no other role; and when the role already existed and
no recreation was forced, the returned ARN is the existing role's ARN. -/
theorem create_or_update_role_ok (rn b : String) (force : Bool) (s : St)
    (res : Except Err String) (sF : St)
    (h : create_or_update_role rn b force s = (res, sF))
    (hok : res.isOk = true) :
    (policiesNamed sF.aws (rn ++ "-s3-access")).length = 1
    ∧ (policiesNamed sF.aws (rn ++ "-s3-access")).all (fun p => p.bucket == some b) = true
    ∧ roleHasPolicyB sF.aws rn (mkPolicyArn s.aws.accountId (rn ++ "-s3-access")) = true
    ∧ (attachedClosedB s.aws = true →
        policyAttachedOnlyToB sF.aws (mkPolicyArn s.aws.accountId (rn ++ "-s3-access")) rn = true)
    ∧ (∀ r : Role, force = false → findRole s.aws rn = some r →
        res = Except.ok r.arn ∧ roleArnOf sF.aws rn = some r.arn) := by
  unfold create_or_update_role at h
  rw [M.bind_app, role_exists_spec] at h
  dsimp only at h
  by_cases hforce : ((findRole s.aws rn).isSome && force) = true
  · rw [if_pos hforce] at h
    rw [M.bind_app] at h
    rw [M.bind_app] at h
    rcases hd : delete_role rn ⟨s.aws, s.trace ++ [ApiCall.getRole rn]⟩ with ⟨resd, t2⟩
    rw [hd] at h
    cases resd with
    | error e =>
      dsimp only at h
      rw [Prod.mk.injEq] at h
      rw [← h.1] at hok
      simp [Except.isOk, Except.toBool] at hok
    | ok u =>
      dsimp only at h
      rw [if_pos (show ((!false) = true) from rfl)] at h
      rw [M.bind_app] at h
      rcases hc : create_role rn t2 with ⟨resc, t3⟩
      rw [hc] at h
      cases resc with
      | error e =>
        dsimp only at h
        rw [Prod.mk.injEq] at h
        rw [← h.1] at hok
        simp [Except.isOk, Except.toBool] at hok
      | ok ra =>
        dsimp only at h
        have hP1 := iamFrame_delete_role rn ⟨s.aws, s.trace ++ [ApiCall.getRole rn]⟩
        rw [hd] at hP1
        dsimp only at hP1
        have hP2 := iamFrame_create_role rn t2
        rw [hc] at hP2
        dsimp only at hP2
        have hacct : t3.aws.accountId = s.aws.accountId := by
          rw [hP2.1, hP1.1]
        have hCl : attachedClosedB s.aws = true → attachedClosedB t3.aws = true := by
          intro hC
          have h1 := closedFrame_delete_role rn ⟨s.aws, s.trace ++ [ApiCall.getRole rn]⟩ hC
          rw [hd] at h1
          have h2 := closedFrame_create_role rn t2 h1
          rw [hc] at h2
          exact h2
        obtain ⟨hres, c1, c2, c3, c4, c5⟩ :=
          upsert_transport rn b ra s t3 res sF h hok hacct hCl
        refine ⟨c1, c2, c3, c4, ?_⟩
        intro r hf0 hfind
        rw [hf0, Bool.and_false] at hforce
        exact (Bool.false_ne_true hforce).elim
  · rw [if_neg hforce] at h
    rw [M.bind_app, M.pure_app] at h
    dsimp only at h
    cases hex : findRole s.aws rn with
    | none =>
      rw [hex] at h
      rw [if_pos (show ((!(none : Option Role).isSome) = true) from rfl)] at h
      rw [M.bind_app] at h
      rcases hc : create_role rn ⟨s.aws, s.trace ++ [ApiCall.getRole rn]⟩ with ⟨resc, t3⟩
      rw [hc] at h
      cases resc with
      | error e =>
        dsimp only at h
        rw [Prod.mk.injEq] at h
        rw [← h.1] at hok
        simp [Except.isOk, Except.toBool] at hok
      | ok ra =>
        dsimp only at h
        have hP2 := iamFrame_create_role rn ⟨s.aws, s.trace ++ [ApiCall.getRole rn]⟩
        rw [hc] at hP2
        dsimp only at hP2
        have hacct : t3.aws.accountId = s.aws.accountId := by
          rw [hP2.1]
        have hCl : attachedClosedB s.aws = true → attachedClosedB t3.aws = true := by
          intro hC
          have h2 := closedFrame_create_role rn ⟨s.aws, s.trace ++ [ApiCall.getRole rn]⟩ hC
          rw [hc] at h2
          exact h2
        obtain ⟨hres, c1, c2, c3, c4, c5⟩ :=
          upsert_transport rn b ra s t3 res sF h hok hacct hCl
        refine ⟨c1, c2, c3, c4, ?_⟩
        intro r hf0 hfind
        exact Option.noConfusion hfind
    | some r0 =>
      rw [hex] at h
      rw [if_neg (show ¬((!(some r0).isSome) = true) from by simp)] at h
      rw [M.bind_app] at h
      rw [M.bind_app] at h
      have hg : iam_get_role rn ⟨s.aws, s.trace ++ [ApiCall.getRole rn]⟩
          = (Except.ok r0, ⟨s.aws, s.trace ++ [ApiCall.getRole rn] ++ [ApiCall.getRole rn]⟩) := by
        unfold iam_get_role
        simp [St.record, hex]
      rw [hg] at h
      dsimp only at h
      obtain ⟨hres, c1, c2, c3, c4, c5⟩ :=
        upsert_transport rn b r0.arn s
          ⟨s.aws, s.trace ++ [ApiCall.getRole rn] ++ [ApiCall.getRole rn]⟩ res sF h hok rfl
          (fun hC => hC)
      refine ⟨c1, c2, c3, c4, ?_⟩
      intro r hf0 hfind
      have hrr : r = r0 := (Option.some.inj hfind).symm
      subst hrr
      constructor
      · exact hres
      · rw [c5]
        show roleArnOf s.aws rn = some r.arn
        unfold roleArnOf
        rw [hex]
        rfl

/-! ## Call-counting helpers -/

theorem countCalls_append (p : ApiCall → Bool) (t1 t2 : List ApiCall) :
    countCalls p (t1 ++ t2) = countCalls p t1 + countCalls p t2 := by
  unfold countCalls
  rw [List.filter_append, List.length_append]

theorem countCalls_zero_of_all_not (p : ApiCall → Bool) (ds : List ApiCall)
    (h : ds.all (fun c => !(p c)) = true) : countCalls p ds = 0 := by
  unfold countCalls
  rw [List.length_eq_zero, List.filter_eq_nil_iff]
  intro a ha
  have h2 := List.all_eq_true.mp h a ha
  simp at h2
  simp [h2]

theorem filter_filter_of_imp (p q : ApiCall → Bool) (hpq : ∀ c, p c = true → q c = true)
    (t : List ApiCall) : (t.filter q).filter p = t.filter p := by
  rw [List.filter_filter]
  apply List.filter_congr
  intro a _
  cases hp : p a with
  | true => rw [hpq a hp]; rfl
  | false => rfl

theorem countCalls_of_filter_eq (p q : ApiCall → Bool) (hpq : ∀ c, p c = true → q c = true)
    (t1 t2 : List ApiCall) (h : t1.filter q = t2.filter q) :
    countCalls p t1 = countCalls p t2 := by
  unfold countCalls
  rw [← filter_filter_of_imp p q hpq t1, ← filter_filter_of_imp p q hpq t2, h]

theorem isCreateFunctionCall_write :
    ∀ c, isCreateFunctionCall c = true → isComputeWriteCall c = true := by
  intro c h
  unfold isComputeWriteCall
  rw [h]
  rfl

theorem isUpdateFunctionCodeCall_write :
    ∀ c, isUpdateFunctionCodeCall c = true → isComputeWriteCall c = true := by
  intro c h
  unfold isComputeWriteCall
  rw [h]
  simp

theorem isUpdateFunctionConfigurationCall_write :
    ∀ c, isUpdateFunctionConfigurationCall c = true → isComputeWriteCall c = true := by
  intro c h
  unfold isComputeWriteCall
  rw [h]
  simp

theorem countCalls_zero_of_sub (p q : ApiCall → Bool) (hpq : ∀ c, p c = true → q c = true)
    (ds : List ApiCall) (h : ds.all (fun c => !(q c)) = true) : countCalls p ds = 0 := by
  apply countCalls_zero_of_all_not
  rw [List.all_eq_true] at h ⊢
  intro a ha
  have h2 := h a ha
  simp only [Bool.not_eq_true'] at h2 ⊢
  cases hp : p a with
  | false => rfl
  | true => rw [hpq a hp] at h2; exact h2

/-- The network-attachment construction touches no state and records only
describe calls, never a mutating compute call. -/
theorem create_vpc_config_calls (v : String) (ids : List String)
    (sg : Option (List String)) (s : St) :
    (create_vpc_config v ids sg s).2.aws = s.aws
    ∧ ∃ ds : List ApiCall,
        (create_vpc_config v ids sg s).2.trace = s.trace ++ ds
        ∧ ds.all (fun c => !(isComputeWriteCall c)) = true := by
  rw [create_vpc_config_spec]
  by_cases h1 : vpcOkB s.aws v = true
  · by_cases h2 : subnetsOkB s.aws ids v = true
    · by_cases h3 : optListTruthy sg = true
      · by_cases h4 : securityGroupsOkB s.aws (sg.getD []) v = true
        · rw [if_pos h1, if_pos h2, if_pos h3, if_pos h4]
          exact ⟨rfl, [.describeVpcs [v], .describeSubnets ids, .describeSecurityGroups (sg.getD [])], rfl, rfl⟩
        · rw [if_pos h1, if_pos h2, if_pos h3, if_neg h4]
          exact ⟨rfl, [.describeVpcs [v], .describeSubnets ids, .describeSecurityGroups (sg.getD [])], rfl, rfl⟩
      · rw [if_pos h1, if_pos h2, if_neg h3]
        exact ⟨rfl, [.describeVpcs [v], .describeSubnets ids], rfl, rfl⟩
    · rw [if_pos h1, if_neg h2]
      exact ⟨rfl, [.describeVpcs [v], .describeSubnets ids], rfl, rfl⟩
  · rw [if_neg h1]
    exact ⟨rfl, [.describeVpcs [v]], rfl, rfl⟩

/-- Deploying onto an existing function updates the code and then the
configuration, recording getFunction, updateFunctionCode and
updateFunctionConfiguration, and returns the function's ARN. -/
theorem deploy_function_update_spec (fn ecr ra : String) (mem tmo : Nat)
    (vc : Option VpcConfig) (s : St) (F : LambdaFunction)
    (hf : findFunction s.aws fn = some F) :
    deploy_function fn ecr ra mem tmo vc s
      = (Except.ok F.arn,
          ⟨{ s.aws with functions := updateFunctions (updateFunctions s.aws.functions fn (fun g => { g with imageUri := ecr })) fn (fun g => applyConfigUpdate g ⟨some ra, some mem, some tmo, vc, none⟩) },
            s.trace ++ [.getFunction fn, .updateFunctionCode fn, .updateFunctionConfiguration fn]⟩) := by
  have hname : (F.name == fn) = true := by simpa using List.find?_some hf
  have hf2 : findFunction { s.aws with functions := updateFunctions s.aws.functions fn (fun g => { g with imageUri := ecr }) } fn
      = some { F with imageUri := ecr } := by
    show (updateFunctions s.aws.functions fn (fun g => { g with imageUri := ecr })).find? (fun g => g.name == fn) = _
    rw [findFunction_updateFunctions s.aws.functions fn (fun g => { g with imageUri := ecr }) (fun g => rfl) fn]
    rw [show s.aws.functions.find? (fun g => g.name == fn) = some F from hf]
    rw [Option.map_some']
    rw [if_pos hname]
  unfold deploy_function
  rw [M.bind_app, function_exists_spec]
  dsimp only
  rw [hf]
  dsimp only [Option.isSome]
  rw [if_pos rfl]
  rw [M.bind_app]
  unfold update_function_code lambda_update_function_code
  dsimp only [St.record]
  rw [hf]
  dsimp only
  unfold update_function_configuration lambda_update_function_configuration
  dsimp only [St.record, St.setAws]
  rw [hf2]
  dsimp only
  simp

/-- A successful configure-then-return tail appends exactly headBucket,
getFunctionConfiguration and updateFunctionConfiguration to the trace. -/
theorem configure_tail_trace (fn s3b : String) (A : DeployResult) (t : St)
    (res : Except Err DeployResult) (sF : St)
    (h : (configure_s3_access fn s3b >>= fun _ => pure A) t = (res, sF))
    (hok : res.isOk = true) :
    sF.trace = t.trace ++ [.headBucket s3b, .getFunctionConfiguration fn, .updateFunctionConfiguration fn] := by
  by_cases hb : t.aws.s3Buckets.contains s3b = true
  · cases hff : findFunction t.aws fn with
    | some G =>
      rw [M.bind_app, configure_s3_access_ok fn s3b G t hb hff] at h
      dsimp only at h
      rw [M.pure_app] at h
      rw [Prod.mk.injEq] at h
      rw [← h.2]
    | none =>
      rw [M.bind_app, configure_s3_access_no_function fn s3b t hb hff] at h
      dsimp only at h
      rw [Prod.mk.injEq] at h
      rw [← h.1] at hok
      simp [Except.isOk, Except.toBool] at hok
  · have hb' : t.aws.s3Buckets.contains s3b = false := by simpa using hb
    rw [M.bind_app, configure_s3_access_unreachable fn s3b t hb'] at h
    dsimp only at h
    rw [Prod.mk.injEq] at h
    rw [← h.1] at hok
    simp [Except.isOk, Except.toBool] at hok

/-- Call counts of the role-upsert / function-deploy / S3-configure tail of
`deploy`, run from any state in which the function already exists: one
updateFunctionCode, no createFunction, two updateFunctionConfiguration. -/
theorem deploy_tail_counts (fn ecr s3b rname : String) (mem tmo : Nat) (vc : Option VpcConfig)
    (force : Bool) (s1 : St) (res : Except Err DeployResult) (sF : St)
    (h : (create_or_update_role rname s3b force >>= fun role_arn =>
          deploy_function fn ecr role_arn mem tmo vc >>= fun function_arn =>
          configure_s3_access fn s3b >>= fun _ =>
          pure (⟨function_arn, role_arn⟩ : DeployResult)) s1 = (res, sF))
    (hok : res.isOk = true)
    (hex : (findFunction s1.aws fn).isSome = true) :
    countCalls isUpdateFunctionCodeCall sF.trace = countCalls isUpdateFunctionCodeCall s1.trace + 1
    ∧ countCalls isCreateFunctionCall sF.trace = countCalls isCreateFunctionCall s1.trace
    ∧ countCalls isUpdateFunctionConfigurationCall sF.trace
        = countCalls isUpdateFunctionConfigurationCall s1.trace + 2 := by
  rw [M.bind_app] at h
  rcases hrole : create_or_update_role rname s3b force s1 with ⟨resr, s2⟩
  rw [hrole] at h
  cases resr with
  | error e =>
    dsimp only at h
    rw [Prod.mk.injEq] at h
    rw [← h.1] at hok
    simp [Except.isOk, Except.toBool] at hok
  | ok ra =>
    dsimp only at h
    have hPr := iamFrame_create_or_update_role rname s3b force s1
    rw [hrole] at hPr
    dsimp only at hPr
    obtain ⟨F, hF⟩ := Option.isSome_iff_exists.mp hex
    have hF2 : findFunction s2.aws fn = some F := by
      unfold findFunction
      rw [hPr.2.1]
      exact hF
    rw [M.bind_app] at h
    rw [deploy_function_update_spec fn ecr ra mem tmo vc s2 F hF2] at h
    dsimp only at h
    have htr := configure_tail_trace fn s3b ⟨F.arn, ra⟩ _ res sF h hok
    have htrace2 : countCalls isUpdateFunctionCodeCall s2.trace = countCalls isUpdateFunctionCodeCall s1.trace :=
      countCalls_of_filter_eq _ _ isUpdateFunctionCodeCall_write _ _ hPr.2.2.2.2.2.2.2
    have htrace2' : countCalls isCreateFunctionCall s2.trace = countCalls isCreateFunctionCall s1.trace :=
      countCalls_of_filter_eq _ _ isCreateFunctionCall_write _ _ hPr.2.2.2.2.2.2.2
    have htrace2'' : countCalls isUpdateFunctionConfigurationCall s2.trace
        = countCalls isUpdateFunctionConfigurationCall s1.trace :=
      countCalls_of_filter_eq _ _ isUpdateFunctionConfigurationCall_write _ _ hPr.2.2.2.2.2.2.2
    refine ⟨?_, ?_, ?_⟩
    · rw [htr]
      dsimp only
      rw [countCalls_append, countCalls_append, htrace2]
      show countCalls isUpdateFunctionCodeCall s1.trace + 1 + 0
        = countCalls isUpdateFunctionCodeCall s1.trace + 1
      omega
    · rw [htr]
      dsimp only
      rw [countCalls_append, countCalls_append, htrace2']
      show countCalls isCreateFunctionCall s1.trace + 0 + 0
        = countCalls isCreateFunctionCall s1.trace
      omega
    · rw [htr]
      dsimp only
      rw [countCalls_append, countCalls_append, htrace2'']
      show countCalls isUpdateFunctionConfigurationCall s1.trace + 1 + 1
        = countCalls isUpdateFunctionConfigurationCall s1.trace + 2
      omega

/-- C1 (amended): deploying onto a function that already exists makes, during
that run, exactly one updateFunctionCode call, zero createFunction calls, and
TWO updateFunctionConfiguration calls: one from the function deployer and a
second one from the S3 access manager writing the merged environment back. -/
theorem deploy_existing_function_call_counts (ecr fn s3b : String)
    (rname : Option String) (mem tmo : Nat) (vpc_id : Option String)
    (subnet_ids sg : Option (List String)) (force : Bool) (s : St)
    (res : Except Err DeployResult) (sF : St)
    (h : deploy ecr fn s3b rname mem tmo vpc_id subnet_ids sg force s = (res, sF))
    (hok : res.isOk = true)
    (hex : (findFunction s.aws fn).isSome = true) :
    countCalls isUpdateFunctionCodeCall sF.trace = countCalls isUpdateFunctionCodeCall s.trace + 1
    ∧ countCalls isCreateFunctionCall sF.trace = countCalls isCreateFunctionCall s.trace
    ∧ countCalls isUpdateFunctionConfigurationCall sF.trace
        = countCalls isUpdateFunctionConfigurationCall s.trace + 2 := by
  unfold deploy at h
  by_cases hE : (ecr == "") = true
  · rw [if_pos hE, M.throw_app, Prod.mk.injEq] at h
    rw [← h.1] at hok
    simp [Except.isOk, Except.toBool] at hok
  · rw [if_neg hE] at h
    by_cases hFn : (fn == "") = true
    · rw [if_pos hFn, M.throw_app, Prod.mk.injEq] at h
      rw [← h.1] at hok
      simp [Except.isOk, Except.toBool] at hok
    · rw [if_neg hFn] at h
      by_cases hS : (s3b == "") = true
      · rw [if_pos hS, M.throw_app, Prod.mk.injEq] at h
        rw [← h.1] at hok
        simp [Except.isOk, Except.toBool] at hok
      · rw [if_neg hS] at h
        by_cases hV : strTruthy vpc_id = true
        · rw [if_pos hV] at h
          by_cases hSub : optListTruthy subnet_ids = true
          · rw [if_neg (show ¬((!optListTruthy subnet_ids) = true) from by simp [hSub])] at h
            rw [M.bind_app] at h
            rw [M.bind_app] at h
            rcases hvpc : create_vpc_config (vpc_id.getD "") (subnet_ids.getD []) sg s with ⟨resv, s1⟩
            rw [hvpc] at h
            cases resv with
            | error e =>
              dsimp only at h
              rw [Prod.mk.injEq] at h
              rw [← h.1] at hok
              simp [Except.isOk, Except.toBool] at hok
            | ok cfg =>
              dsimp only at h
              have hcalls := create_vpc_config_calls (vpc_id.getD "") (subnet_ids.getD []) sg s
              rw [hvpc] at hcalls
              dsimp only at hcalls
              obtain ⟨haws1, ds, htr1, hds⟩ := hcalls
              have hex1 : (findFunction s1.aws fn).isSome = true := by
                rw [haws1]
                exact hex
              obtain ⟨c1, c2, c3⟩ := deploy_tail_counts fn ecr s3b _ mem tmo (some cfg) force s1 res sF h hok hex1
              refine ⟨?_, ?_, ?_⟩
              · rw [c1, htr1, countCalls_append,
                  countCalls_zero_of_sub _ _ isUpdateFunctionCodeCall_write ds hds]
              · rw [c2, htr1, countCalls_append,
                  countCalls_zero_of_sub _ _ isCreateFunctionCall_write ds hds]
                omega
              · rw [c3, htr1, countCalls_append,
                  countCalls_zero_of_sub _ _ isUpdateFunctionConfigurationCall_write ds hds]
          · have hSub' : optListTruthy subnet_ids = false := by simpa using hSub
            rw [if_pos (show (!optListTruthy subnet_ids) = true from by rw [hSub']; rfl)] at h
            rw [M.bind_app, M.throw_app] at h
            dsimp only at h
            rw [Prod.mk.injEq] at h
            rw [← h.1] at hok
            simp [Except.isOk, Except.toBool] at hok
        · rw [if_neg hV] at h
          rw [M.bind_app, M.pure_app] at h
          dsimp only at h
          exact deploy_tail_counts fn ecr s3b _ mem tmo none force s res sF h hok hex

theorem deploy_existing_function_call_counts_witness :
    countCalls isUpdateFunctionCodeCall
        (deploy "img2" "f" "b" none 128 30 none none none false ⟨exAws, []⟩).2.trace
      = countCalls isUpdateFunctionCodeCall (⟨exAws, []⟩ : St).trace + 1
    ∧ countCalls isCreateFunctionCall
        (deploy "img2" "f" "b" none 128 30 none none none false ⟨exAws, []⟩).2.trace
      = countCalls isCreateFunctionCall (⟨exAws, []⟩ : St).trace
    ∧ countCalls isUpdateFunctionConfigurationCall
        (deploy "img2" "f" "b" none 128 30 none none none false ⟨exAws, []⟩).2.trace
      = countCalls isUpdateFunctionConfigurationCall (⟨exAws, []⟩ : St).trace + 2 :=
  deploy_existing_function_call_counts "img2" "f" "b" none 128 30 none none none false
    ⟨exAws, []⟩ _ _ rfl (by decide) (by decide)

theorem deploy_existing_function_single_config_update_cex :
    (findFunction exAws "f").isSome = true
    ∧ ((deploy "img2" "f" "b" none 128 30 none none none false ⟨exAws, []⟩).1).isOk = true
    ∧ countCalls isUpdateFunctionConfigurationCall
        (deploy "img2" "f" "b" none 128 30 none none none false ⟨exAws, []⟩).2.trace = 2 :=
  ⟨rfl, by decide, by decide⟩

/-- C2: when ecr_image_uri, function_name or s3_bucket is empty, or vpc_id is
set while subnet_ids is empty, deploy fails with a MissingParameter error and
the returned state is the entry state: no collaborator call was recorded. -/
theorem deploy_missing_parameter_before_any_call (ecr fn s3b : String)
    (rname : Option String) (mem tmo : Nat) (vpc_id : Option String)
    (subnet_ids sg : Option (List String)) (force : Bool) (s : St)
    (h : ecr = "" ∨ fn = "" ∨ s3b = ""
        ∨ (strTruthy vpc_id = true ∧ optListTruthy subnet_ids = false)) :
    ∃ e, deploy ecr fn s3b rname mem tmo vpc_id subnet_ids sg force s = (Except.error e, s)
      ∧ e.isMissingParameter = true := by
  unfold deploy
  by_cases hE : (ecr == "") = true
  · exact ⟨.missingEcrImageUri, by rw [if_pos hE]; rfl, rfl⟩
  · rw [if_neg hE]
    by_cases hFn : (fn == "") = true
    · exact ⟨.missingFunctionName, by rw [if_pos hFn]; rfl, rfl⟩
    · rw [if_neg hFn]
      by_cases hS : (s3b == "") = true
      · exact ⟨.missingS3Bucket, by rw [if_pos hS]; rfl, rfl⟩
      · rw [if_neg hS]
        rcases h with h1 | h2 | h3 | ⟨hv, hsub⟩
        · exact absurd (by simp [h1]) hE
        · exact absurd (by simp [h2]) hFn
        · exact absurd (by simp [h3]) hS
        · refine ⟨.missingSubnetIds, ?_, rfl⟩
          rw [if_pos hv, if_pos (show (!optListTruthy subnet_ids) = true from by rw [hsub]; rfl)]
          rw [M.bind_app, M.throw_app]

theorem deploy_missing_parameter_before_any_call_witness :
    ∃ e, deploy "" "f" "b" none 128 30 none none none false ⟨exAws, []⟩
        = (Except.error e, ⟨exAws, []⟩)
      ∧ e.isMissingParameter = true :=
  deploy_missing_parameter_before_any_call "" "f" "b" none 128 30 none none none false
    ⟨exAws, []⟩ (Or.inl rfl)

/-- C3: after every successful `create_or_update_role` on a well-formed world
there is exactly one managed policy named `{role_name}-s3-access`, it is
scoped to this run's bucket, it is attached to the role, and it is attached
to no other role: the stale policy of a previous bucket was detached
everywhere and deleted, never left attached. -/
theorem create_or_update_role_policy_invariant (rn b : String) (force : Bool) (s : St)
    (res : Except Err String) (sF : St)
    (h : create_or_update_role rn b force s = (res, sF))
    (hok : res.isOk = true)
    (hwf : attachedClosedB s.aws = true) :
    (policiesNamed sF.aws (rn ++ "-s3-access")).length = 1
    ∧ (policiesNamed sF.aws (rn ++ "-s3-access")).all (fun p => p.bucket == some b) = true
    ∧ roleHasPolicyB sF.aws rn (mkPolicyArn s.aws.accountId (rn ++ "-s3-access")) = true
    ∧ policyAttachedOnlyToB sF.aws (mkPolicyArn s.aws.accountId (rn ++ "-s3-access")) rn = true := by
  obtain ⟨c1, c2, c3, c4, _⟩ := create_or_update_role_ok rn b force s res sF h hok
  exact ⟨c1, c2, c3, c4 hwf⟩

theorem create_or_update_role_policy_invariant_witness :
    (policiesNamed (create_or_update_role "r1" "b" false ⟨exAws, []⟩).2.aws ("r1" ++ "-s3-access")).length = 1
    ∧ (policiesNamed (create_or_update_role "r1" "b" false ⟨exAws, []⟩).2.aws ("r1" ++ "-s3-access")).all (fun p => p.bucket == some "b") = true
    ∧ roleHasPolicyB (create_or_update_role "r1" "b" false ⟨exAws, []⟩).2.aws "r1" (mkPolicyArn "123456789012" ("r1" ++ "-s3-access")) = true
    ∧ policyAttachedOnlyToB (create_or_update_role "r1" "b" false ⟨exAws, []⟩).2.aws (mkPolicyArn "123456789012" ("r1" ++ "-s3-access")) "r1" = true :=
  create_or_update_role_policy_invariant "r1" "b" false ⟨exAws, []⟩ _ _ rfl (by decide) (by decide)

/-- C4: `create_vpc_config` fails with invalidSubnets when a requested subnet
belongs to a different VPC, fails with invalidSecurityGroups when a requested
security group belongs to a different VPC, and on valid inputs returns a
descriptor whose SubnetIds is the input list, with SecurityGroupIds absent
when no security groups were supplied. -/
theorem create_vpc_config_validation (v : String) (ids : List String)
    (sg : Option (List String)) (s : St)
    (hv : vpcOkB s.aws v = true) :
    (∀ l sn, lookupAll (findSubnet s.aws) ids = some l → sn ∈ l → (sn.vpcId == v) = false →
      (create_vpc_config v ids sg s).1 = Except.error (Err.invalidSubnets ids))
    ∧ (∀ gl L g, subnetsOkB s.aws ids v = true → sg = some gl →
        optListTruthy (some gl) = true →
        lookupAll (findSecurityGroup s.aws) gl = some L → g ∈ L → (g.vpcId == v) = false →
        (create_vpc_config v ids sg s).1 = Except.error (Err.invalidSecurityGroups gl))
    ∧ (subnetsOkB s.aws ids v = true → optListTruthy sg = true →
        securityGroupsOkB s.aws (sg.getD []) v = true →
        (create_vpc_config v ids sg s).1 = Except.ok (⟨ids, sg⟩ : VpcConfig))
    ∧ (subnetsOkB s.aws ids v = true → sg = none →
        (create_vpc_config v ids sg s).1 = Except.ok (⟨ids, none⟩ : VpcConfig)) := by
  refine ⟨?_, ?_, ?_, ?_⟩
  · intro l sn hl hsn hvne
    have hall : (l.all fun x => x.vpcId == v && x.state == "available") = false := by
      cases hA : l.all (fun x => x.vpcId == v && x.state == "available") with
      | false => rfl
      | true =>
        have h5 := List.all_eq_true.mp hA sn hsn
        rw [hvne] at h5
        simp at h5
    have hsub : subnetsOkB s.aws ids v = false := by
      unfold subnetsOkB
      rw [hl]
      dsimp only
      rw [hall, Bool.and_false]
    rw [create_vpc_config_spec, if_pos hv, if_neg (by simp [hsub])]
  · intro gl L g hsub hgl htr hL hg hgv
    subst hgl
    have hall : (L.all fun x => x.vpcId == v) = false := by
      cases hA : L.all (fun x => x.vpcId == v) with
      | false => rfl
      | true =>
        have h5 := List.all_eq_true.mp hA g hg
        rw [hgv] at h5
        simp at h5
    have hsgF : securityGroupsOkB s.aws gl v = false := by
      unfold securityGroupsOkB
      rw [hL]
      dsimp only
      rw [hall, Bool.and_false]
    rw [create_vpc_config_spec, if_pos hv, if_pos hsub, if_pos htr,
      if_neg (by simp [Option.getD_some, hsgF])]
    rfl
  · intro hsub htr hsg
    rw [create_vpc_config_spec, if_pos hv, if_pos hsub, if_pos htr, if_pos hsg]
  · intro hsub hnone
    subst hnone
    rw [create_vpc_config_spec, if_pos hv, if_pos hsub,
      if_neg (show ¬(optListTruthy (none : Option (List String)) = true) from by simp [optListTruthy])]

theorem create_vpc_config_validation_witness :
    (create_vpc_config "v1" ["s2"] none ⟨exAws, []⟩).1 = Except.error (Err.invalidSubnets ["s2"])
    ∧ (create_vpc_config "v1" ["s1"] (some ["g2"]) ⟨exAws, []⟩).1 = Except.error (Err.invalidSecurityGroups ["g2"])
    ∧ (create_vpc_config "v1" ["s1"] (some ["g1"]) ⟨exAws, []⟩).1 = Except.ok (⟨["s1"], some ["g1"]⟩ : VpcConfig)
    ∧ (create_vpc_config "v1" ["s1"] none ⟨exAws, []⟩).1 = Except.ok (⟨["s1"], none⟩ : VpcConfig) :=
  ⟨(create_vpc_config_validation "v1" ["s2"] none ⟨exAws, []⟩ (by decide)).1
      [⟨"s2", "v2", "available"⟩] ⟨"s2", "v2", "available"⟩ (by decide)
      (List.mem_singleton.mpr rfl) (by decide),
   (create_vpc_config_validation "v1" ["s1"] (some ["g2"]) ⟨exAws, []⟩ (by decide)).2.1
      ["g2"] [⟨"g2", "v2"⟩] ⟨"g2", "v2"⟩ (by decide) rfl (by decide) (by decide)
      (List.mem_singleton.mpr rfl) (by decide),
   (create_vpc_config_validation "v1" ["s1"] (some ["g1"]) ⟨exAws, []⟩ (by decide)).2.2.1
      (by decide) (by decide) (by decide),
   (create_vpc_config_validation "v1" ["s1"] none ⟨exAws, []⟩ (by decide)).2.2.2
      (by decide) rfl⟩

/-- C5 (amended): the role and function existence checks turn exactly their
collaborator's not-found code (NoSuchEntity, ResourceNotFoundException) into
a negative result and re-raise every other code; the bucket probe turns BOTH
404 and 403 into a negative result, so a forbidden bucket is also reported as
non-existent rather than re-raised. -/
theorem existence_check_fault_codes (code : String) :
    roleExistsOfClientError "NoSuchEntity" = Except.ok false
    ∧ (code ≠ "NoSuchEntity" → roleExistsOfClientError code = Except.error (Err.clientError code))
    ∧ functionExistsOfClientError "ResourceNotFoundException" = Except.ok false
    ∧ (code ≠ "ResourceNotFoundException" → functionExistsOfClientError code = Except.error (Err.clientError code))
    ∧ bucketExistsOfClientError "404" = Except.ok false
    ∧ bucketExistsOfClientError "403" = Except.ok false
    ∧ (code ≠ "404" → code ≠ "403" → bucketExistsOfClientError code = Except.error (Err.clientError code)) := by
  refine ⟨rfl, ?_, rfl, ?_, rfl, rfl, ?_⟩
  · intro h1
    unfold roleExistsOfClientError
    rw [if_neg (by simp [h1])]
  · intro h1
    unfold functionExistsOfClientError
    rw [if_neg (by simp [h1])]
  · intro h1 h2
    unfold bucketExistsOfClientError
    rw [if_neg (by simp [h1]), if_neg (by simp [h2])]

theorem existence_check_fault_codes_witness :
    roleExistsOfClientError "AccessDenied" = Except.error (Err.clientError "AccessDenied")
    ∧ functionExistsOfClientError "TooManyRequestsException"
        = Except.error (Err.clientError "TooManyRequestsException")
    ∧ bucketExistsOfClientError "500" = Except.error (Err.clientError "500") :=
  ⟨(existence_check_fault_codes "AccessDenied").2.1 (by decide),
   (existence_check_fault_codes "TooManyRequestsException").2.2.2.1 (by decide),
   (existence_check_fault_codes "500").2.2.2.2.2.2 (by decide) (by decide)⟩

theorem bucket_probe_forbidden_not_reraised_cex :
    (("403" : String) == "404") = false
    ∧ bucketExistsOfClientError "403" = Except.ok false :=
  ⟨rfl, rfl⟩

/-- C6: when the bucket probe of `configure_s3_access` reports the bucket
unreachable (head_bucket 404 or 403 alike), the call fails with
bucketUnavailable, no updateFunctionConfiguration call is recorded, and any
two unreachable worlds yield the caller the very same outcome: the probe's
two fault codes are not distinguished to the caller. -/
theorem configure_s3_access_unavailable_bucket (f b : String) (s : St)
    (h : s.aws.s3Buckets.contains b = false) :
    configure_s3_access f b s
        = (Except.error (Err.bucketUnavailable b), ⟨s.aws, s.trace ++ [.headBucket b]⟩)
    ∧ countCalls isUpdateFunctionConfigurationCall (configure_s3_access f b s).2.trace
        = countCalls isUpdateFunctionConfigurationCall s.trace
    ∧ (∀ s' : St, s'.aws.s3Buckets.contains b = false →
        (configure_s3_access f b s).1 = (configure_s3_access f b s').1) := by
  have hu := configure_s3_access_unreachable f b s h
  refine ⟨hu, ?_, ?_⟩
  · rw [hu]
    dsimp only
    rw [countCalls_append]
    show countCalls isUpdateFunctionConfigurationCall s.trace + 0 = _
    omega
  · intro s' h'
    rw [hu, configure_s3_access_unreachable f b s' h']

theorem configure_s3_access_unavailable_bucket_witness :
    configure_s3_access "f" "fb" ⟨exAws, []⟩
        = (Except.error (Err.bucketUnavailable "fb"), ⟨exAws, [ApiCall.headBucket "fb"]⟩)
    ∧ (configure_s3_access "f" "fb" ⟨exAws, []⟩).1
        = (configure_s3_access "f" "fb" ⟨{ exAws with s3Forbidden := [] }, []⟩).1 :=
  ⟨(configure_s3_access_unavailable_bucket "f" "fb" ⟨exAws, []⟩ (by decide)).1,
   (configure_s3_access_unavailable_bucket "f" "fb" ⟨exAws, []⟩ (by decide)).2.2
      ⟨{ exAws with s3Forbidden := [] }, []⟩ (by decide)⟩

/-- C7: calling `create_or_update_role` with force_recreate = false on a role
that already exists returns exactly the ARN the role had before the call,
leaves the role in place under that same ARN, and still creates and attaches
a fresh bucket-scoped `{role_name}-s3-access` policy to it. -/
theorem create_or_update_role_existing_reuse (rn b : String) (s : St)
    (res : Except Err String) (sF : St) (r : Role)
    (h : create_or_update_role rn b false s = (res, sF))
    (hok : res.isOk = true)
    (hr : findRole s.aws rn = some r) :
    res = Except.ok r.arn
    ∧ roleArnOf sF.aws rn = some r.arn
    ∧ roleHasPolicyB sF.aws rn (mkPolicyArn s.aws.accountId (rn ++ "-s3-access")) = true
    ∧ (policiesNamed sF.aws (rn ++ "-s3-access")).length = 1
    ∧ (policiesNamed sF.aws (rn ++ "-s3-access")).all (fun p => p.bucket == some b) = true := by
  obtain ⟨c1, c2, c3, _, c5⟩ := create_or_update_role_ok rn b false s res sF h hok
  obtain ⟨d1, d2⟩ := c5 r rfl hr
  exact ⟨d1, d2, c3, c1, c2⟩

theorem create_or_update_role_existing_reuse_witness :
    (create_or_update_role "r1" "newbucket" false ⟨exAws, []⟩).1
        = Except.ok (mkRoleArn "123456789012" "r1")
    ∧ roleArnOf (create_or_update_role "r1" "newbucket" false ⟨exAws, []⟩).2.aws "r1"
        = some (mkRoleArn "123456789012" "r1")
    ∧ roleHasPolicyB (create_or_update_role "r1" "newbucket" false ⟨exAws, []⟩).2.aws "r1"
        (mkPolicyArn "123456789012" ("r1" ++ "-s3-access")) = true :=
  ⟨(create_or_update_role_existing_reuse "r1" "newbucket" ⟨exAws, []⟩ _ _
      ⟨"r1", mkRoleArn "123456789012" "r1", [mkPolicyArn "123456789012" "r1-s3-access"]⟩
      rfl (by decide) (by decide)).1,
   (create_or_update_role_existing_reuse "r1" "newbucket" ⟨exAws, []⟩ _ _
      ⟨"r1", mkRoleArn "123456789012" "r1", [mkPolicyArn "123456789012" "r1-s3-access"]⟩
      rfl (by decide) (by decide)).2.1,
   (create_or_update_role_existing_reuse "r1" "newbucket" ⟨exAws, []⟩ _ _
      ⟨"r1", mkRoleArn "123456789012" "r1", [mkPolicyArn "123456789012" "r1-s3-access"]⟩
      rfl (by decide) (by decide)).2.2.1⟩

/-- C8: configuring S3 access for a function on a reachable bucket leaves the
function's environment equal to the previous one with the single well-known
variable S3_BUCKET set to the bucket name; every other variable keeps its
previous value: the map is merged, not replaced. -/
theorem configure_s3_access_env_merge (f b : String) (F : LambdaFunction) (s : St)
    (hb : s.aws.s3Buckets.contains b = true)
    (hf : findFunction s.aws f = some F) :
    envLookupOf (configure_s3_access f b s).2.aws f "S3_BUCKET" = some b
    ∧ (∀ k, ¬(k = "S3_BUCKET") →
        envLookupOf (configure_s3_access f b s).2.aws f k = envLookupOf s.aws f k) := by
  have hname : (F.name == f) = true := by simpa using List.find?_some hf
  have hff : findFunction (configure_s3_access f b s).2.aws f
      = some (applyConfigUpdate F ⟨none, none, none, none, some (dictSet F.env "S3_BUCKET" b)⟩) := by
    rw [configure_s3_access_ok f b F s hb hf]
    show (updateFunctions s.aws.functions f (fun g => applyConfigUpdate g ⟨none, none, none, none, some (dictSet F.env "S3_BUCKET" b)⟩)).find? (fun g => g.name == f) = _
    rw [findFunction_updateFunctions s.aws.functions f
      (fun g => applyConfigUpdate g ⟨none, none, none, none, some (dictSet F.env "S3_BUCKET" b)⟩)
      (fun g => rfl) f]
    rw [show s.aws.functions.find? (fun g => g.name == f) = some F from hf]
    rw [Option.map_some']
    rw [if_pos hname]
  constructor
  · unfold envLookupOf
    rw [hff]
    dsimp only [applyConfigUpdate, Option.getD]
    exact lookupEnv_dictSet_self F.env "S3_BUCKET" b
  · intro k hk
    unfold envLookupOf
    rw [hff, hf]
    dsimp only [applyConfigUpdate, Option.getD]
    exact lookupEnv_dictSet_other F.env "S3_BUCKET" b k hk

theorem configure_s3_access_env_merge_witness :
    envLookupOf (configure_s3_access "f" "b" ⟨exAws, []⟩).2.aws "f" "S3_BUCKET" = some "b"
    ∧ envLookupOf (configure_s3_access "f" "b" ⟨exAws, []⟩).2.aws "f" "A" = envLookupOf exAws "f" "A" :=
  ⟨(configure_s3_access_env_merge "f" "b"
      ⟨"f", mkFunctionArn "f", "img1", "arn:aws:iam::123456789012:role/old", 128, 30, none, [("A", "1")]⟩
      ⟨exAws, []⟩ (by decide) (by decide)).1,
   (configure_s3_access_env_merge "f" "b"
      ⟨"f", mkFunctionArn "f", "img1", "arn:aws:iam::123456789012:role/old", 128, 30, none, [("A", "1")]⟩
      ⟨exAws, []⟩ (by decide) (by decide)).2 "A" (by decide)⟩

/-- C9: `create_vpc_config` treats an empty security-group list exactly like
an absent one: the whole run is identical to the run with none supplied, no
describeSecurityGroups call is recorded, and a successful descriptor carries
no SecurityGroupIds. -/
theorem create_vpc_config_empty_security_groups (v : String) (ids : List String) (s : St) :
    create_vpc_config v ids (some []) s = create_vpc_config v ids none s
    ∧ countCalls isDescribeSecurityGroupsCall (create_vpc_config v ids (some []) s).2.trace
        = countCalls isDescribeSecurityGroupsCall s.trace
    ∧ (∀ cfg : VpcConfig, (create_vpc_config v ids (some []) s).1 = Except.ok cfg →
        cfg.SecurityGroupIds = none) := by
  have he : optListTruthy (some ([] : List String)) = false := rfl
  refine ⟨?_, ?_, ?_⟩
  · rw [create_vpc_config_spec, create_vpc_config_spec]
    by_cases h1 : vpcOkB s.aws v = true
    · by_cases h2 : subnetsOkB s.aws ids v = true
      · rw [if_pos h1, if_pos h1, if_pos h2, if_pos h2,
          if_neg (by simp [he]), if_neg (by simp [optListTruthy])]
      · rw [if_pos h1, if_pos h1, if_neg h2, if_neg h2]
    · rw [if_neg h1, if_neg h1]
  · rw [create_vpc_config_spec]
    by_cases h1 : vpcOkB s.aws v = true
    · by_cases h2 : subnetsOkB s.aws ids v = true
      · rw [if_pos h1, if_pos h2, if_neg (by simp [he])]
        dsimp only
        rw [countCalls_append]
        show countCalls isDescribeSecurityGroupsCall s.trace + 0 = _
        omega
      · rw [if_pos h1, if_neg h2]
        dsimp only
        rw [countCalls_append]
        show countCalls isDescribeSecurityGroupsCall s.trace + 0 = _
        omega
    · rw [if_neg h1]
      dsimp only
      rw [countCalls_append]
      show countCalls isDescribeSecurityGroupsCall s.trace + 0 = _
      omega
  · intro cfg hcfg
    rw [create_vpc_config_spec] at hcfg
    by_cases h1 : vpcOkB s.aws v = true
    · by_cases h2 : subnetsOkB s.aws ids v = true
      · rw [if_pos h1, if_pos h2, if_neg (by simp [he])] at hcfg
        dsimp only at hcfg
        rw [← Except.ok.inj hcfg]
      · rw [if_pos h1, if_neg h2] at hcfg
        exact Except.noConfusion hcfg
    · rw [if_neg h1] at hcfg
      exact Except.noConfusion hcfg

theorem create_vpc_config_empty_security_groups_witness :
    create_vpc_config "v1" ["s1"] (some []) ⟨exAws, []⟩ = create_vpc_config "v1" ["s1"] none ⟨exAws, []⟩
    ∧ VpcConfig.SecurityGroupIds ⟨["s1"], none⟩ = none :=
  ⟨(create_vpc_config_empty_security_groups "v1" ["s1"] ⟨exAws, []⟩).1,
   (create_vpc_config_empty_security_groups "v1" ["s1"] ⟨exAws, []⟩).2.2
      ⟨["s1"], none⟩ rfl⟩

/-- C10: `configure_s3_access` never returns False: every run either returns
True (bucket probe succeeded and the environment update completed) or raises
an error; the documented "False otherwise" outcome is unreachable. -/
theorem configure_s3_access_never_false (f b : String) (s : St) :
    (configure_s3_access f b s).1 ≠ Except.ok false
    ∧ ((configure_s3_access f b s).1 = Except.ok true
        ∨ ∃ e, (configure_s3_access f b s).1 = Except.error e) := by
  by_cases hb : s.aws.s3Buckets.contains b = true
  · cases hf : findFunction s.aws f with
    | some F =>
      rw [configure_s3_access_ok f b F s hb hf]
      exact ⟨by simp, Or.inl rfl⟩
    | none =>
      rw [configure_s3_access_no_function f b s hb hf]
      exact ⟨by simp, Or.inr ⟨Err.clientError "ResourceNotFoundException", rfl⟩⟩
  · have hb' : s.aws.s3Buckets.contains b = false := by simpa using hb
    rw [configure_s3_access_unreachable f b s hb']
    exact ⟨by simp, Or.inr ⟨Err.bucketUnavailable b, rfl⟩⟩

theorem configure_s3_access_never_false_witness :
    (configure_s3_access "f" "b" ⟨exAws, []⟩).1 ≠ Except.ok false
    ∧ (configure_s3_access "f" "fb" ⟨exAws, []⟩).1 ≠ Except.ok false :=
  ⟨(configure_s3_access_never_false "f" "b" ⟨exAws, []⟩).1,
   (configure_s3_access_never_false "f" "fb" ⟨exAws, []⟩).1⟩
